import Mathlib

/-!
# Saved variables, blobs and graph walks

A shallow embedding of `torch/csrc/autograd/saved_variable.{h,cpp}` and of the
driver `test.cpp`.

Memory is explicit: a `World` maps storage ids to byte lists and version-counter
ids to counters, so that two snapshots can share one buffer.  Console output
(`cout`, `cerr`) is not part of the state.  The host is taken to be 64-bit and
little-endian (`sizeof(size_t) = 8`).
-/

namespace Torch

/-! ## Bytes and the length word -/

abbrev Byte := Fin 256

/-- A blob is the memory a `uint8_t*` points to. -/
abbrev Blob := List Byte

/-- The value of `sizeof(size_t)`. -/
def sizeof_size_t : Nat := 8

/-- The `i`-th byte of a machine word, least significant first. -/
def wordByte (n i : Nat) : Byte := ⟨(n / 256 ^ i) % 256, Nat.mod_lt _ (by decide)⟩

/-- The store `*reinterpret_cast<size_t*>(buffer) = n`: the eight bytes written. -/
def storeSizeT (n : Nat) : List Byte :=
  [wordByte n 0, wordByte n 1, wordByte n 2, wordByte n 3,
   wordByte n 4, wordByte n 5, wordByte n 6, wordByte n 7]

/-- The value of a little-endian byte sequence. -/
def wordValue : List Byte → Nat
  | [] => 0
  | b :: bs => b.val + 256 * wordValue bs

/-- The load `*reinterpret_cast<size_t*>(blob)`.  Reading fewer than eight
bytes is outside the allocation and has no defined value. -/
def loadSizeT (blob : Blob) : Option Nat :=
  if blob.length < sizeof_size_t then none else some (wordValue (blob.take sizeof_size_t))

/-- The effect of `memcpy(dst, src, src.length)` on the bytes at `dst`. -/
def memcpy (dst src : List Byte) : List Byte := src ++ dst.drop src.length

/-! ## Tensors and the world -/

/-- The handle part of an `at::Tensor`; its bytes live in the world. -/
structure Tensor where
  defined : Bool
  is_sparse : Bool
  storage : Nat
  sizes : List Nat
  itemsize : Nat
  type_string : String
  requires_grad : Bool
deriving DecidableEq, Repr

/-- The undefined tensor `at::Tensor()`. -/
def Tensor.undefined : Tensor :=
  { defined := false, is_sparse := false, storage := 0, sizes := [], itemsize := 0,
    type_string := "UndefinedType", requires_grad := false }

instance : Inhabited Tensor := ⟨Tensor.undefined⟩

def Tensor.numel (t : Tensor) : Nat := t.sizes.prod

/-- The value of `nbytes()`: element count times element size. -/
def Tensor.nbytes (t : Tensor) : Nat := t.numel * t.itemsize

/-- Exceptions, and reads outside an allocation. -/
inductive Err where
  | runtime_error (msg : String)
  | logic_error (msg : String)
  | c10_error (msg : String)
  | out_of_bounds
deriving DecidableEq, Repr

structure World where
  /-- The bytes of each storage. -/
  storage : Nat → List Byte
  /-- The value of each shared version counter. -/
  version : Nat → Nat
  /-- Whether a node is still owned, so that `weak_ptr::lock` succeeds. -/
  alive : Nat → Bool
  /-- The result of `Node::name()`. -/
  node_name : Nat → String
  /-- The result of `AnomalyMode::is_enabled()`. -/
  anomaly_enabled : Bool

/-- The bytes a dense tensor points to. -/
def World.bytes (w : World) (t : Tensor) : List Byte := w.storage t.storage

def World.setStorage (w : World) (id : Nat) (bs : List Byte) : World :=
  { w with storage := fun j => if j = id then bs else w.storage j }

/-- Modelled from the spec: the in-place mutation of a buffer, which is not under
the source tree.  "A monotonically increasing version counter, bumped on every
in-place mutation"; the counter is a `uint32_t`. -/
def World.bump_version (w : World) (id : Nat) : World :=
  { w with version := fun j => if j = id then (w.version j + 1) % 2 ^ 32 else w.version j }

/-- A tensor passed by reference as the source of a copy: its handle and the
bytes it holds when the call is made. -/
structure TensorVal where
  tensor : Tensor
  bytes : List Byte
deriving DecidableEq, Repr

/-- The method `set_requires_grad`. -/
def Tensor.set_requires_grad (t : Tensor) (b : Bool) : Tensor := { t with requires_grad := b }

/-- The tensor `t.clone().detach().to(cpu)`: a fresh host tensor of the same
shape holding the first `nbytes` bytes of the buffer. -/
def World.clone (w : World) (t : Tensor) : TensorVal :=
  { tensor := t.set_requires_grad false, bytes := (w.bytes t).take t.nbytes }

/-- Modelled from the spec: `at::Tensor::copy_`, which is not under the source
tree.  "Overwrites this snapshot's buffer content with other's content without
bumping the version counter"; "byte lengths must match exactly; mismatch fails
with ShapeMismatchError".  Following the source comment in `copy_data_from`,
the copy throws on a destination that requires grad. -/
def Tensor.copy_ (w : World) (dst : Tensor) (src : TensorVal) : Except Err World :=
  if !dst.defined || !src.tensor.defined then
    .error (.c10_error "undefined tensor")
  else if dst.requires_grad then
    .error (.runtime_error
      "a leaf Variable that requires grad has been used in an in-place operation.")
  else if src.tensor.nbytes ≠ dst.nbytes then
    .error (.c10_error "ShapeMismatchError")
  else
    .ok (w.setStorage dst.storage (memcpy (w.bytes dst) (src.bytes.take dst.nbytes)))

/-! ## SavedVariable -/

/-- The fields of `class SavedVariable`, with their default member initialisers. -/
structure SavedVariable where
  data_ : Tensor := Tensor.undefined
  grad_fn_ : Option Nat := none
  weak_grad_fn_ : Option Nat := none
  grad_accumulator_ : Option Nat := none
  /-- The id of the shared counter; `none` is the private counter of a default
  constructed `c10::VariableVersion`, which stays at zero. -/
  version_counter_ : Option Nat := none
  saved_version_ : Nat := 0
  output_nr_ : Nat := 0
  was_default_constructed_ : Bool := true
  requires_grad_ : Bool := false
  has_grad_fn_ : Bool := false
  is_inplace_view_ : Bool := false
deriving DecidableEq, Repr

/-- A `Variable` as the constructor of `SavedVariable` sees it. -/
structure Variable where
  /-- The tensor `tensor_data()` shares its storage with. -/
  data : Tensor
  /-- The result of `grad_fn()`; null for a leaf. -/
  grad_fn : Option Nat
  output_nr : Nat
  requires_grad : Bool
  /-- The result of `impl::grad_accumulator(variable)`. -/
  grad_accumulator : Option Nat
  /-- The id of `impl::version_counter(variable)`. -/
  version_counter : Nat
deriving DecidableEq, Repr

def Variable.defined (v : Variable) : Bool := v.data.defined

/-- Modelled from the spec: `Variable::is_leaf`, not under the source tree.
"Leaf: a node representing a directly supplied input with no producer". -/
def Variable.is_leaf (v : Variable) : Bool := v.grad_fn.isNone

/-- The tensor `variable.tensor_data()`: same storage, detached from autograd. -/
def Variable.tensor_data (v : Variable) : Tensor := v.data.set_requires_grad false

/-- The value of `version_counter_.current_version()`, a `uint32_t`. -/
def SavedVariable.current_version (w : World) (s : SavedVariable) : Nat :=
  match s.version_counter_ with
  | some id => w.version id % 2 ^ 32
  | none => 0

/-- The constructor `SavedVariable(variable, is_output, is_inplace_view)`. -/
def SavedVariable.mk_from (w : World) (v : Variable) (is_output : Bool)
    (is_inplace_view : Bool) : SavedVariable :=
  if v.defined then
    let s0 : SavedVariable :=
      { was_default_constructed_ := false
        output_nr_ := v.output_nr
        requires_grad_ := v.requires_grad
        has_grad_fn_ := !v.is_leaf
        is_inplace_view_ := is_inplace_view
        data_ := v.tensor_data }
    let s1 : SavedVariable :=
      if v.is_leaf then
        { s0 with grad_accumulator_ := v.grad_accumulator }
      else if !is_output then
        { s0 with grad_fn_ := v.grad_fn }
      else if is_inplace_view then
        { s0 with weak_grad_fn_ := v.grad_fn }
      else s0
    let s2 : SavedVariable := { s1 with version_counter_ := some v.version_counter }
    { s2 with saved_version_ := s2.current_version w }
  else
    {}

/-- The method `reset_data`. -/
def SavedVariable.reset_data (s : SavedVariable) : SavedVariable :=
  { s with data_ := Tensor.undefined }

/-- The method `reset_grad_function`. -/
def SavedVariable.reset_grad_function (s : SavedVariable) : SavedVariable :=
  { s with grad_fn_ := none }

/-- The result of `weak_ptr::lock`: the node when it is still alive. -/
def World.lock (w : World) (p : Option Nat) : Option Nat :=
  match p with
  | some n => if w.alive n then some n else none
  | none => none

/-- The result of `weak_ptr::expired`. -/
def World.expired (w : World) (p : Option Nat) : Bool := (w.lock p).isNone

def ERR_BACKWARD_TWICE : String :=
  "Trying to backward through the graph a second time, but the buffers have " ++
  "already been freed. Specify retain_graph=True when calling backward " ++
  "the first time."

/-- The text `operator<<` prints for `sizes()`. -/
def showSizes (sizes : List Nat) : String :=
  "[" ++ ", ".intercalate (sizes.map toString) ++ "]"

/-- The pieces streamed into `message` in `unpack`, in order. -/
def staleVersionPieces (w : World) (s : SavedVariable) (grad_fn : Option Nat) : List String :=
  ["one of the variables needed for gradient computation has been " ++
     "modified by an inplace operation: [", s.data_.type_string, " ",
     showSizes s.data_.sizes, "]"] ++
  (match grad_fn with
   | some g => [", which is output ", toString s.output_nr_, " of ", w.node_name g, ","]
   | none => []) ++
  [" is at version ", toString (s.current_version w),
   "; expected version ", toString s.saved_version_, " instead."] ++
  (if !w.anomaly_enabled then
     [" Hint: enable anomaly detection to find the operation " ++
      "that failed to compute its gradient, with torch.autograd." ++
      "set_detect_anomaly(True)."]
   else
     [" Hint: the backtrace further above shows the operation " ++
      "that failed to compute its gradient. The variable in question " ++
      "was changed in there or anywhere later. Good luck!"])

def staleVersionMessage (w : World) (s : SavedVariable) (grad_fn : Option Nat) : String :=
  String.join (staleVersionPieces w s grad_fn)

/-- What `make_variable` was given: a gradient edge, or a requires-grad flag. -/
inductive Provenance where
  | edge (function : Nat) (input_nr : Nat)
  | leaf (requires_grad : Bool)
deriving DecidableEq, Repr

/-- The `Variable` that `unpack` builds. -/
structure UnpackedVariable where
  /-- The tensor whose storage the variable shares. -/
  data : Tensor
  provenance : Provenance
  /-- The value of the version counter installed by `set_version_counter`. -/
  version : Nat
  /-- The weak reference installed by `set_grad_accumulator`. -/
  grad_accumulator : Option Nat
deriving DecidableEq, Repr

/-- The result of `var.grad_fn()`. -/
def UnpackedVariable.grad_fn (v : UnpackedVariable) : Option Nat :=
  match v.provenance with
  | .edge f _ => some f
  | .leaf _ => none

/-- The value `is_inplace_view_ ? weak_grad_fn_.lock() : grad_fn_` that `unpack`
starts from. -/
def SavedVariable.stored_grad_fn (w : World) (s : SavedVariable) : Option Nat :=
  if s.is_inplace_view_ then w.lock s.weak_grad_fn_ else s.grad_fn_

/-- The method `unpack(saved_for)`.  The result `none` is the undefined
`Variable()`. -/
def SavedVariable.unpack (w : World) (s : SavedVariable) (saved_for : Option Nat) :
    Except Err (Option UnpackedVariable) :=
  if !s.data_.defined then
    if !s.was_default_constructed_ then
      .error (.runtime_error ERR_BACKWARD_TWICE)
    else
      .ok none
  else
    let grad_fn0 := s.stored_grad_fn w
    if s.has_grad_fn_ && grad_fn0.isNone && saved_for.isNone then
      .error (.runtime_error "No grad_fn for non-leaf saved variable")
    else
      let grad_fn := if s.has_grad_fn_ && grad_fn0.isNone then saved_for else grad_fn0
      if s.saved_version_ ≠ s.current_version w then
        .error (.runtime_error (staleVersionMessage w s grad_fn))
      else
        let var : UnpackedVariable :=
          { data := s.data_
            provenance :=
              match grad_fn with
              | some g => .edge g s.output_nr_
              | none => .leaf s.requires_grad_
            version := s.saved_version_
            grad_accumulator := none }
        if s.requires_grad_ && var.grad_fn.isNone && w.expired s.grad_accumulator_ then
          .error (.logic_error "No grad accumulator for a saved leaf!")
        else
          .ok (some { var with grad_accumulator := s.grad_accumulator_ })

/-- The state a mutating method leaves behind, with the exception it threw, if
any. -/
structure Effect where
  world : World
  self : SavedVariable
  thrown : Option Err

/-- The method `copy_data_from(otherData)`.  When `copy_` throws, the flag has
been cleared and is not set back. -/
def SavedVariable.copy_data_from (w : World) (s : SavedVariable) (otherData : TensorVal) :
    Effect :=
  let reqGrad := s.data_.requires_grad
  let s1 := { s with data_ := s.data_.set_requires_grad false }
  match s1.data_.copy_ w otherData with
  | .error e => { world := w, self := s1, thrown := some e }
  | .ok w1 =>
    { world := w1, self := { s1 with data_ := s1.data_.set_requires_grad reqGrad },
      thrown := none }

/-- The method `serialize_to_blob`.  On an undefined tensor `clone` throws. -/
def SavedVariable.serialize_to_blob (w : World) (s : SavedVariable) : Except Err Blob :=
  if s.data_.is_sparse then
    .ok (List.replicate sizeof_size_t 0)
  else if !s.data_.defined then
    .error (.c10_error "undefined tensor")
  else
    let copied := w.clone s.data_
    .ok (storeSizeT copied.tensor.nbytes ++ copied.bytes.take copied.tensor.nbytes)

/-- The method `deserialize_from_blob(data)`.  A blob too short for the reads
made on it gives `out_of_bounds`; on an undefined tensor `nbytes` throws. -/
def SavedVariable.deserialize_from_blob (w : World) (s : SavedVariable) (data : Blob) :
    Effect :=
  if s.data_.is_sparse then
    { world := w, self := s, thrown := none }
  else
    match loadSizeT data with
    | none => { world := w, self := s, thrown := some .out_of_bounds }
    | some dataSz =>
      if !s.data_.defined then
        { world := w, self := s, thrown := some (.c10_error "undefined tensor") }
      else if dataSz ≠ s.data_.nbytes then
        { world := w, self := s, thrown := none }
      else
        let ramTensor := w.clone s.data_
        if data.length < sizeof_size_t + ramTensor.tensor.nbytes then
          { world := w, self := s, thrown := some .out_of_bounds }
        else
          let ramTensor :=
            { ramTensor with
              bytes := memcpy ramTensor.bytes
                ((data.drop sizeof_size_t).take ramTensor.tensor.nbytes) }
          s.copy_data_from w ramTensor

/-! ## The driver: graph walks -/

/-- The type `queue<uint8_t*>`: the front is the head, `push` appends. -/
abbrev BlobQueue := List Blob

/-- The type `queue<queue<uint8_t*>>`. -/
abbrev FullStack := List BlobQueue

/-- The methods of `torch::autograd::Node` that the driver calls.  They are not
under the source tree and are taken as parameters; `σ` is the state of the
graph and of the memory its nodes refer to, and nodes are named by ids. -/
structure NodeApi (σ : Type) where
  can_serialize_variables : σ → Nat → Bool
  serialize_variables : σ → Nat → BlobQueue
  deserialize_variables : σ → Nat → BlobQueue → σ
  next_edges : σ → Nat → List (Option Nat)

/-- The outcome of a walk: `none` when the fuel ran out, otherwise the result
or the error that stopped it. -/
abbrev Walk (α : Type) := Option (Except Err α)

/-- The loop `for (auto next : edges) f(next.function, fullstk)`. -/
def forEdges (f : Option Nat → FullStack → Walk FullStack) :
    List (Option Nat) → FullStack → Walk FullStack
  | [], stk => some (.ok stk)
  | e :: es, stk =>
    match f e stk with
    | some (.ok stk1) => forEdges f es stk1
    | other => other

/-- The read `*reinterpret_cast<size_t*>(blobq.front())` of `recurseGraph`:
calling `front` on an empty queue, or reading a blob of fewer than eight bytes,
has no defined value. -/
def frontBlobSize (blobq : BlobQueue) : Option Nat :=
  match blobq with
  | [] => none
  | b :: _ => loadSizeT b

/-- The function `recurseGraph(node, fullstk)` of the driver.  Each level of
recursion uses one unit of fuel. -/
def recurseGraph {σ : Type} (api : NodeApi σ) (s : σ) :
    Nat → Option Nat → FullStack → Walk FullStack
  | _, none, fullstk => some (.ok fullstk)
  | 0, some _, _ => none
  | fuel + 1, some node, fullstk =>
    if api.can_serialize_variables s node then
      let blobq := api.serialize_variables s node
      match frontBlobSize blobq with
      | none => some (.error .out_of_bounds)
      | some _ => forEdges (recurseGraph api s fuel) (api.next_edges s node) (fullstk ++ [blobq])
    else
      forEdges (recurseGraph api s fuel) (api.next_edges s node) fullstk

/-- The function `recurseRestore(node, fullstk)` of the driver.  Its loop calls
`recurseGraph`, as the source does. -/
def recurseRestore {σ : Type} (api : NodeApi σ) (s : σ) :
    Nat → Option Nat → FullStack → Walk (σ × FullStack)
  | _, none, fullstk => some (.ok (s, fullstk))
  | 0, some _, _ => none
  | fuel + 1, some node, fullstk =>
    if api.can_serialize_variables s node then
      match fullstk with
      | [] => some (.error .out_of_bounds)
      | front :: rest =>
        let s1 := api.deserialize_variables s node front
        match forEdges (recurseGraph api s1 fuel) (api.next_edges s1 node) rest with
        | some (.ok stk) => some (.ok (s1, stk))
        | some (.error e) => some (.error e)
        | none => none
    else
      match forEdges (recurseGraph api s fuel) (api.next_edges s node) fullstk with
      | some (.ok stk) => some (.ok (s, stk))
      | some (.error e) => some (.error e)
      | none => none

/-! ## The pre-order of a graph -/

/-- The depth-first pre-order of the nodes reachable from a list of edges: a
node comes before the nodes its own edges lead to, edges are followed in their
list order, and an edge without a node contributes nothing.  A listing exists
exactly when the part of the graph reached is finite and acyclic. -/
inductive PreOrder {σ : Type} (api : NodeApi σ) (s : σ) : List (Option Nat) → List Nat → Prop
  | nil : PreOrder api s [] []
  | absent {es : List (Option Nat)} {l : List Nat} :
      PreOrder api s es l → PreOrder api s (none :: es) l
  | node {n : Nat} {es : List (Option Nat)} {l1 l2 : List Nat} :
      PreOrder api s (api.next_edges s n) l1 → PreOrder api s es l2 →
      PreOrder api s (some n :: es) (n :: l1 ++ l2)

/-- The queues of the serializable nodes of a visit sequence, in its order. -/
def queuesOf {σ : Type} (api : NodeApi σ) (s : σ) (visits : List Nat) : FullStack :=
  (visits.filter (api.can_serialize_variables s)).map (api.serialize_variables s)

/-! ## Auxiliary notions used in the statements -/

/-- The producer `unpack` ends up with after resolution: the stored one, or
`saved_for` when a producer is needed and none is stored. -/
def SavedVariable.resolved_grad_fn (w : World) (s : SavedVariable) (saved_for : Option Nat) :
    Option Nat :=
  if s.has_grad_fn_ && (s.stored_grad_fn w).isNone then saved_for else s.stored_grad_fn w

/-- A producer is resolvable: when one is needed, one is stored or supplied. -/
def SavedVariable.producer_resolvable (w : World) (s : SavedVariable)
    (saved_for : Option Nat) : Bool :=
  !s.has_grad_fn_ || (s.stored_grad_fn w).isSome || saved_for.isSome

/-- The variable `unpack` returns when it returns one. -/
def SavedVariable.unpacked (w : World) (s : SavedVariable) (saved_for : Option Nat) :
    UnpackedVariable :=
  { data := s.data_
    provenance :=
      match s.resolved_grad_fn w saved_for with
      | some g => .edge g s.output_nr_
      | none => .leaf s.requires_grad_
    version := s.saved_version_
    grad_accumulator := s.grad_accumulator_ }

/-- The error `unpack` throws for a stale version. -/
def SavedVariable.staleVersionError (w : World) (s : SavedVariable) (saved_for : Option Nat) :
    Err :=
  .runtime_error (staleVersionMessage w s (s.resolved_grad_fn w saved_for))

/-- The world after `k` in-place mutations of the buffer with counter `id`. -/
def World.bump_versions (w : World) (id : Nat) : Nat → World
  | 0 => w
  | k + 1 => (w.bump_versions id k).bump_version id

/-- Whether a call returned normally. -/
def Effect.returnsNormally (e : Effect) : Bool := e.thrown.isNone

/-! ## Sample objects -/

/-- A memory with two four-byte buffers, all counters at zero. -/
def sampleWorld : World :=
  { storage := fun id => if id = 0 then [1, 2, 3, 4] else if id = 1 then [9, 8, 7, 6] else []
    version := fun _ => 0
    alive := fun _ => true
    node_name := fun _ => "MulBackward0"
    anomaly_enabled := false }

/-- A dense one-element float tensor on the given storage. -/
def sampleTensor (storage : Nat) : Tensor :=
  { defined := true, is_sparse := false, storage := storage, sizes := [1], itemsize := 4,
    type_string := "CPUFloatType", requires_grad := false }

/-- A leaf variable on storage 0 that requires grad. -/
def sampleLeaf : Variable :=
  { data := sampleTensor 0, grad_fn := none, output_nr := 0, requires_grad := true,
    grad_accumulator := some 5, version_counter := 0 }

/-- A variable on storage 1 produced by node 7. -/
def sampleResult : Variable :=
  { data := sampleTensor 1, grad_fn := some 7, output_nr := 0, requires_grad := true,
    grad_accumulator := none, version_counter := 1 }

/-- A blob that declares no payload. -/
def emptyBlob : Blob := storeSizeT 0

/-- A chain of two serializable nodes, `0 → 1`, where node 1 has one edge without
a producer.  The state is the list of `deserialize_variables` calls made so
far; each node emits one blob whose single payload byte differs per node. -/
def chainApi : NodeApi (List (Nat × BlobQueue)) :=
  { can_serialize_variables := fun _ n => decide (n < 2)
    serialize_variables := fun _ n => [storeSizeT 1 ++ [wordByte (n + 10) 0]]
    deserialize_variables := fun calls n q => calls ++ [(n, q)]
    next_edges := fun _ n => if n = 0 then [some 1] else [none] }

/-- The snapshot of `sampleLeaf` taken in `sampleWorld`. -/
def sampleSnapshot : SavedVariable := SavedVariable.mk_from sampleWorld sampleLeaf false false

/-- The snapshot of `sampleResult` taken in `sampleWorld`. -/
def sampleTarget : SavedVariable := SavedVariable.mk_from sampleWorld sampleResult false false

/-- A source tensor holding four bytes. -/
def sampleSource : TensorVal := { tensor := sampleTensor 2, bytes := [5, 5, 5, 5] }

/-- A rank on the nodes of `chainApi` that decreases along its edge. -/
def chainRank (n : Nat) : Nat := 2 - n

/-- The snapshot a node takes of its own output `sampleResult`: no producer is
stored. -/
def sampleOwnOutput : SavedVariable := SavedVariable.mk_from sampleWorld sampleResult true false

/-- The snapshot of `sampleLeaf` after `reset_data`. -/
def sampleConsumed : SavedVariable := sampleSnapshot.reset_data

/-- The world `sampleWorld` after every node has been released. -/
def sampleWorldReleased : World := { sampleWorld with alive := fun _ => false }

/-- A snapshot whose buffer has a sparse layout. -/
def sampleSparse : SavedVariable :=
  { data_ := { sampleTensor 0 with is_sparse := true }, was_default_constructed_ := false }

/-- A source tensor of two elements, eight bytes. -/
def sampleLongSource : TensorVal :=
  { tensor := { sampleTensor 2 with sizes := [2] }, bytes := [5, 5, 5, 5, 6, 6, 6, 6] }

/-- Whether the characters `piece` begin the characters `msg`. -/
def startsWithChars : List Char → List Char → Bool
  | _, [] => true
  | [], _ :: _ => false
  | c :: cs, p :: ps => c == p && startsWithChars cs ps

/-- Whether the characters `piece` occur in `msg` as a run of consecutive
characters. -/
def occursInChars : List Char → List Char → Bool
  | [], piece => piece.isEmpty
  | c :: cs, piece => startsWithChars (c :: cs) piece || occursInChars cs piece

/-- Whether the text `msg` contains the text `piece`. -/
def occursIn (piece msg : String) : Bool := occursInChars msg.data piece.data

/-- The pieces `unpack` streams into the message only when it has a producer. -/
def producerClause (w : World) (s : SavedVariable) : Option Nat → List String
  | some g => [", which is output ", toString s.output_nr_, " of ", w.node_name g, ","]
  | none => []

/-- The world `sampleWorld` with anomaly mode enabled, after one in-place
mutation of the buffer of `sampleLeaf`. -/
def sampleWorldAnomaly : World :=
  { (sampleWorld.bump_version sampleLeaf.version_counter) with anomaly_enabled := true }

/-- The number of edge paths of at most `k` edges from `node` to `target`: the
empty path when the two are the same node, and for each edge of `node`, in
turn, the paths from the node it leads to. -/
def pathsFrom {σ : Type} (api : NodeApi σ) (s : σ) : Nat → Nat → Nat → Nat
  | 0, node, target => if node = target then 1 else 0
  | k + 1, node, target =>
    (if node = target then 1 else 0)
      + (((api.next_edges s node).filterMap id).map (fun m => pathsFrom api s k m target)).sum

/-- A diamond of four serializable nodes: `0 → 1 → 3` and `0 → 2 → 3`, where
node 3 has one edge without a producer.  The state is the list of
`deserialize_variables` calls made so far; each node emits one blob whose
single payload byte differs per node. -/
def diamondApi : NodeApi (List (Nat × BlobQueue)) :=
  { can_serialize_variables := fun _ _ => true
    serialize_variables := fun _ n => [storeSizeT 1 ++ [wordByte (n + 10) 0]]
    deserialize_variables := fun calls n q => calls ++ [(n, q)]
    next_edges := fun _ n =>
      if n = 0 then [some 1, some 2] else if n = 1 ∨ n = 2 then [some 3] else [none] }

/-- The queue node `n` of `diamondApi` emits. -/
def diamondQueue (n : Nat) : BlobQueue := diamondApi.serialize_variables [] n

/-! ## Tensor handles -/

@[simp] theorem Tensor.set_requires_grad_nbytes (t : Tensor) (b : Bool) :
    (t.set_requires_grad b).nbytes = t.nbytes := rfl

@[simp] theorem Tensor.set_requires_grad_defined (t : Tensor) (b : Bool) :
    (t.set_requires_grad b).defined = t.defined := rfl

@[simp] theorem Tensor.set_requires_grad_is_sparse (t : Tensor) (b : Bool) :
    (t.set_requires_grad b).is_sparse = t.is_sparse := rfl

@[simp] theorem Tensor.set_requires_grad_storage (t : Tensor) (b : Bool) :
    (t.set_requires_grad b).storage = t.storage := rfl

@[simp] theorem Tensor.set_requires_grad_requires_grad (t : Tensor) (b : Bool) :
    (t.set_requires_grad b).requires_grad = b := rfl

@[simp] theorem Tensor.set_requires_grad_twice (t : Tensor) (a b : Bool) :
    (t.set_requires_grad a).set_requires_grad b = t.set_requires_grad b := rfl

theorem Tensor.set_requires_grad_self (t : Tensor) :
    t.set_requires_grad t.requires_grad = t := rfl

@[simp] theorem World.bytes_set_requires_grad (w : World) (t : Tensor) (b : Bool) :
    w.bytes (t.set_requires_grad b) = w.bytes t := rfl

/-! ## The length word -/

theorem storeSizeT_length (n : Nat) : (storeSizeT n).length = 8 := rfl

theorem wordValue_storeSizeT (n : Nat) : wordValue (storeSizeT n) = n % 2 ^ 64 := by
  simp only [storeSizeT, wordValue, wordByte]
  norm_num
  omega

theorem loadSizeT_append (n : Nat) (rest : List Byte) :
    loadSizeT (storeSizeT n ++ rest) = some (n % 2 ^ 64) := by
  have h : (storeSizeT n ++ rest).take sizeof_size_t = storeSizeT n := by
    simp [storeSizeT, sizeof_size_t]
  unfold loadSizeT
  rw [h, wordValue_storeSizeT]
  simp [storeSizeT, sizeof_size_t]

theorem memcpy_full (dst src : List Byte) (h : dst.length = src.length) :
    memcpy dst src = src := by
  simp [memcpy, ← h]

/-! ## Blobs -/

theorem serialize_to_blob_dense (w : World) (s : SavedVariable)
    (hdef : s.data_.defined = true) (hdense : s.data_.is_sparse = false)
    (hlen : (w.bytes s.data_).length = s.data_.nbytes) :
    s.serialize_to_blob w = .ok (storeSizeT s.data_.nbytes ++ w.bytes s.data_) := by
  have h1 : List.take s.data_.nbytes (w.bytes s.data_) = w.bytes s.data_ :=
    List.take_of_length_le (by omega)
  simp [SavedVariable.serialize_to_blob, hdef, hdense, World.clone, h1]

/-- C2. The blob of a dense snapshot whose buffer holds `n` bytes has `8 + n`
bytes: the little-endian word `n`, then the bytes of the buffer in order; the
read the driver makes on the first blob of a queue yields `n`. -/
theorem serialize_to_blob_wire_format (w : World) (s : SavedVariable) (rest : BlobQueue)
    (hdef : s.data_.defined = true) (hdense : s.data_.is_sparse = false)
    (hlen : (w.bytes s.data_).length = s.data_.nbytes)
    (hword : s.data_.nbytes < 2 ^ 64) :
    ∃ blob, s.serialize_to_blob w = .ok blob ∧
      blob.length = sizeof_size_t + s.data_.nbytes ∧
      blob.take sizeof_size_t = storeSizeT s.data_.nbytes ∧
      wordValue (blob.take sizeof_size_t) = s.data_.nbytes ∧
      blob.drop sizeof_size_t = w.bytes s.data_ ∧
      loadSizeT blob = some s.data_.nbytes ∧
      frontBlobSize (blob :: rest) = some s.data_.nbytes := by
  refine ⟨_, serialize_to_blob_dense w s hdef hdense hlen, ?_, ?_, ?_, ?_, ?_, ?_⟩
  · simp [storeSizeT_length, sizeof_size_t, hlen]
  · simp [storeSizeT, sizeof_size_t]
  · have h : (storeSizeT s.data_.nbytes ++ w.bytes s.data_).take sizeof_size_t
        = storeSizeT s.data_.nbytes := by simp [storeSizeT, sizeof_size_t]
    rw [h, wordValue_storeSizeT, Nat.mod_eq_of_lt hword]
  · simp [storeSizeT, sizeof_size_t]
  · rw [loadSizeT_append, Nat.mod_eq_of_lt hword]
  · simp only [frontBlobSize]
    rw [loadSizeT_append, Nat.mod_eq_of_lt hword]

theorem deserialize_from_blob_size_mismatch (w : World) (t : SavedVariable) (data : Blob)
    (m : Nat) (hdef : t.data_.defined = true) (hdense : t.data_.is_sparse = false)
    (hload : loadSizeT data = some m) (hne : m ≠ t.data_.nbytes) :
    t.deserialize_from_blob w data = { world := w, self := t, thrown := none } := by
  simp [SavedVariable.deserialize_from_blob, hdef, hdense, hload, hne]

theorem copy_data_from_ok (w : World) (s : SavedVariable) (src : TensorVal)
    (hdef : s.data_.defined = true) (hsrc : src.tensor.defined = true)
    (hsize : src.tensor.nbytes = s.data_.nbytes) :
    s.copy_data_from w src =
      { world := w.setStorage s.data_.storage
          (memcpy (w.bytes s.data_) (src.bytes.take s.data_.nbytes)),
        self := s, thrown := none } := by
  simp [SavedVariable.copy_data_from, Tensor.copy_, hdef, hsrc, hsize,
    Tensor.set_requires_grad_self]

theorem deserialize_from_blob_apply (w : World) (t : SavedVariable) (data : Blob)
    (hdef : t.data_.defined = true) (hdense : t.data_.is_sparse = false)
    (hload : loadSizeT data = some t.data_.nbytes)
    (hlen : sizeof_size_t + t.data_.nbytes ≤ data.length)
    (hbuf : (w.bytes t.data_).length = t.data_.nbytes) :
    t.deserialize_from_blob w data =
      { world := w.setStorage t.data_.storage
          ((data.drop sizeof_size_t).take t.data_.nbytes),
        self := t, thrown := none } := by
  have hpay : ((data.drop sizeof_size_t).take t.data_.nbytes).length = t.data_.nbytes := by
    simp only [List.length_take, List.length_drop]
    omega
  have h1 : (List.take t.data_.nbytes (w.bytes t.data_)).length
      = ((data.drop sizeof_size_t).take t.data_.nbytes).length := by
    rw [hpay, List.length_take, hbuf]
    simp
  have h2 : List.take t.data_.nbytes ((data.drop sizeof_size_t).take t.data_.nbytes)
      = (data.drop sizeof_size_t).take t.data_.nbytes := by
    simp
  have h3 : memcpy (w.bytes t.data_) ((data.drop sizeof_size_t).take t.data_.nbytes)
      = (data.drop sizeof_size_t).take t.data_.nbytes :=
    memcpy_full _ _ (by rw [hbuf, hpay])
  have hnot : ¬ data.length < sizeof_size_t + t.data_.nbytes := by omega
  simp only [SavedVariable.deserialize_from_blob, hdense, hload, hdef, World.clone,
    Tensor.set_requires_grad_nbytes, hnot]
  simp only [Bool.false_eq_true, if_false, Bool.not_true, ne_eq, not_true_eq_false]
  rw [copy_data_from_ok w t _ hdef (by simp [hdef]) (by simp)]
  simp only [memcpy_full _ _ h1, h2, h3]

theorem World.bytes_setStorage (w : World) (t : Tensor) (bs : List Byte) :
    (w.setStorage t.storage bs).bytes t = bs := by
  simp [World.bytes, World.setStorage]

/-- C1. A blob taken from a dense snapshot `s` in world `w`, applied to a dense
snapshot `t` of the same byte length in a later world `w2`, leaves the buffer of
`t` holding the bytes the buffer of `s` held when the blob was taken, and leaves
`t` itself as it was; when the two share their storage and the memory has not
changed in between, nothing in memory changes. -/
theorem blob_round_trip (w w2 : World) (s t : SavedVariable)
    (hsdef : s.data_.defined = true) (hsdense : s.data_.is_sparse = false)
    (htdef : t.data_.defined = true) (htdense : t.data_.is_sparse = false)
    (hs : (w.bytes s.data_).length = s.data_.nbytes)
    (ht : (w2.bytes t.data_).length = t.data_.nbytes)
    (hsame : s.data_.nbytes = t.data_.nbytes)
    (hword : s.data_.nbytes < 2 ^ 64) :
    ∃ blob w3, s.serialize_to_blob w = .ok blob ∧
      t.deserialize_from_blob w2 blob = { world := w3, self := t, thrown := none } ∧
      w3.bytes t.data_ = w.bytes s.data_ ∧
      (∀ id, id ≠ t.data_.storage → w3.storage id = w2.storage id) ∧
      w3.version = w2.version ∧
      (w2 = w → s.data_.storage = t.data_.storage → w3.storage = w.storage) := by
  have hload : loadSizeT (storeSizeT s.data_.nbytes ++ w.bytes s.data_)
      = some t.data_.nbytes := by
    rw [loadSizeT_append, Nat.mod_eq_of_lt hword, hsame]
  have hlen : sizeof_size_t + t.data_.nbytes
      ≤ (storeSizeT s.data_.nbytes ++ w.bytes s.data_).length := by
    simp [storeSizeT_length, sizeof_size_t, hs, hsame]
  have hpay : ((storeSizeT s.data_.nbytes ++ w.bytes s.data_).drop sizeof_size_t).take
      t.data_.nbytes = w.bytes s.data_ := by
    have : (storeSizeT s.data_.nbytes ++ w.bytes s.data_).drop sizeof_size_t
        = w.bytes s.data_ := by simp [storeSizeT, sizeof_size_t]
    rw [this]
    exact List.take_of_length_le (by omega)
  refine ⟨_, _, serialize_to_blob_dense w s hsdef hsdense hs,
    deserialize_from_blob_apply w2 t _ htdef htdense hload hlen ht, ?_, ?_, rfl, ?_⟩
  · rw [World.bytes_setStorage, hpay]
  · intro id hid
    simp [World.setStorage, hid]
  · intro hw hst
    subst hw
    funext id
    by_cases hid : id = t.data_.storage
    · simp only [World.setStorage, hid, if_true, hpay]
      simp [World.bytes, hst]
    · simp [World.setStorage, hid]

/-! ## Size mismatch -/

/-- C4, as stated, fails: applying a blob that declares 0 bytes to a four-byte
dense snapshot returns normally. -/
theorem size_mismatch_returns_normally :
    sampleSnapshot.data_.defined = true ∧
    sampleSnapshot.data_.is_sparse = false ∧
    sampleSnapshot.data_.nbytes = 4 ∧
    loadSizeT emptyBlob = some 0 ∧
    (sampleSnapshot.deserialize_from_blob sampleWorld emptyBlob).thrown = none := by
  refine ⟨rfl, rfl, by decide, by decide, ?_⟩
  rw [deserialize_from_blob_size_mismatch sampleWorld sampleSnapshot emptyBlob 0 rfl rfl
    (by decide) (by decide)]

/-- C4, amended. On a dense snapshot whose buffer holds `n` bytes, a blob whose
length word is `m` with `m ≠ n` makes `deserialize_from_blob` return normally:
no error is raised and the blob is not applied. -/
theorem size_mismatch_is_skipped (w : World) (t : SavedVariable) (data : Blob) (m : Nat)
    (hdef : t.data_.defined = true) (hdense : t.data_.is_sparse = false)
    (hload : loadSizeT data = some m) (hne : m ≠ t.data_.nbytes) :
    (t.deserialize_from_blob w data).returnsNormally = true ∧
      (t.deserialize_from_blob w data).thrown = none ∧
      (t.deserialize_from_blob w data).world.bytes t.data_ = w.bytes t.data_ := by
  rw [deserialize_from_blob_size_mismatch w t data m hdef hdense hload hne]
  exact ⟨rfl, rfl, rfl⟩

theorem size_mismatch_is_skipped_witness :
    (sampleSnapshot.deserialize_from_blob sampleWorld emptyBlob).returnsNormally = true ∧
      (sampleSnapshot.deserialize_from_blob sampleWorld emptyBlob).thrown = none ∧
      (sampleSnapshot.deserialize_from_blob sampleWorld emptyBlob).world.bytes
          sampleSnapshot.data_
        = sampleWorld.bytes sampleSnapshot.data_ :=
  size_mismatch_is_skipped sampleWorld sampleSnapshot emptyBlob 0 rfl rfl (by decide)
    (by decide)

/-- C5. On a dense snapshot, a blob whose length word differs from the byte
length of the buffer leaves every storage, every version counter and every
field of the snapshot as it was. -/
theorem size_mismatch_writes_nothing (w : World) (t : SavedVariable) (data : Blob) (m : Nat)
    (hdef : t.data_.defined = true) (hdense : t.data_.is_sparse = false)
    (hload : loadSizeT data = some m) (hne : m ≠ t.data_.nbytes) :
    (t.deserialize_from_blob w data).world.bytes t.data_ = w.bytes t.data_ ∧
      (t.deserialize_from_blob w data).world.storage = w.storage ∧
      (t.deserialize_from_blob w data).self.current_version
          (t.deserialize_from_blob w data).world = t.current_version w ∧
      (t.deserialize_from_blob w data).world.version = w.version ∧
      (t.deserialize_from_blob w data).self = t := by
  rw [deserialize_from_blob_size_mismatch w t data m hdef hdense hload hne]
  exact ⟨rfl, rfl, rfl, rfl, rfl⟩

theorem size_mismatch_writes_nothing_witness :
    (sampleSnapshot.deserialize_from_blob sampleWorld emptyBlob).world.bytes
          sampleSnapshot.data_
        = sampleWorld.bytes sampleSnapshot.data_ ∧
      (sampleSnapshot.deserialize_from_blob sampleWorld emptyBlob).world.storage
        = sampleWorld.storage ∧
      (sampleSnapshot.deserialize_from_blob sampleWorld emptyBlob).self.current_version
          (sampleSnapshot.deserialize_from_blob sampleWorld emptyBlob).world
        = sampleSnapshot.current_version sampleWorld ∧
      (sampleSnapshot.deserialize_from_blob sampleWorld emptyBlob).world.version
        = sampleWorld.version ∧
      (sampleSnapshot.deserialize_from_blob sampleWorld emptyBlob).self = sampleSnapshot :=
  size_mismatch_writes_nothing sampleWorld sampleSnapshot emptyBlob 0 rfl rfl (by decide)
    (by decide)

/-! ## Versions -/

theorem unpack_of_stale (w : World) (s : SavedVariable) (saved_for : Option Nat)
    (hdef : s.data_.defined = true) (hres : s.producer_resolvable w saved_for = true)
    (hver : s.current_version w ≠ s.saved_version_) :
    s.unpack w saved_for = .error (s.staleVersionError w saved_for) := by
  have hver2 : ¬ s.saved_version_ = s.current_version w := fun h => hver h.symm
  simp only [SavedVariable.producer_resolvable, Bool.or_eq_true, Bool.not_eq_true'] at hres
  simp only [SavedVariable.unpack, hdef, SavedVariable.staleVersionError,
    SavedVariable.resolved_grad_fn]
  cases hg : s.has_grad_fn_ <;> cases hs : s.stored_grad_fn w <;> cases saved_for <;>
    simp_all

theorem unpack_of_fresh (w : World) (s : SavedVariable) (saved_for : Option Nat)
    (hdef : s.data_.defined = true) (hres : s.producer_resolvable w saved_for = true)
    (hver : s.current_version w = s.saved_version_) :
    s.unpack w saved_for =
      if s.requires_grad_ && (s.resolved_grad_fn w saved_for).isNone
          && w.expired s.grad_accumulator_ then
        .error (.logic_error "No grad accumulator for a saved leaf!")
      else .ok (some (s.unpacked w saved_for)) := by
  simp only [SavedVariable.producer_resolvable, Bool.or_eq_true, Bool.not_eq_true'] at hres
  simp only [SavedVariable.unpack, hdef, hver, SavedVariable.unpacked,
    SavedVariable.resolved_grad_fn]
  cases hg : s.has_grad_fn_ <;> cases hs : s.stored_grad_fn w <;> cases saved_for <;>
    simp_all [UnpackedVariable.grad_fn]

theorem unpack_stale_iff (w : World) (s : SavedVariable) (saved_for : Option Nat)
    (hdef : s.data_.defined = true) (hres : s.producer_resolvable w saved_for = true) :
    s.unpack w saved_for = .error (s.staleVersionError w saved_for) ↔
      s.current_version w ≠ s.saved_version_ := by
  constructor
  · intro h hver
    rw [unpack_of_fresh w s saved_for hdef hres hver] at h
    simp only [SavedVariable.staleVersionError] at h
    split at h <;> simp at h
  · exact unpack_of_stale w s saved_for hdef hres

theorem mk_from_defined (w : World) (v : Variable) (is_output is_inplace_view : Bool)
    (hv : v.defined = true) :
    (SavedVariable.mk_from w v is_output is_inplace_view).data_ = v.tensor_data ∧
    (SavedVariable.mk_from w v is_output is_inplace_view).version_counter_
      = some v.version_counter ∧
    (SavedVariable.mk_from w v is_output is_inplace_view).saved_version_
      = w.version v.version_counter % 2 ^ 32 := by
  simp only [SavedVariable.mk_from, hv, if_true]
  cases v.is_leaf <;> cases is_output <;> cases is_inplace_view <;>
    simp [SavedVariable.current_version]

theorem bump_versions_version (w : World) (id k : Nat) :
    (w.bump_versions id k).version id % 2 ^ 32 = (w.version id + k) % 2 ^ 32 := by
  induction k with
  | zero => rfl
  | succ k ih =>
    simp only [World.bump_versions, World.bump_version, if_true]
    omega

theorem bump_versions_alive (w : World) (id k : Nat) :
    (w.bump_versions id k).alive = w.alive := by
  induction k with
  | zero => rfl
  | succ k ih => simpa [World.bump_versions, World.bump_version] using ih

theorem producer_resolvable_congr (w1 w2 : World) (s : SavedVariable) (saved_for : Option Nat)
    (h : w1.alive = w2.alive) :
    s.producer_resolvable w1 saved_for = s.producer_resolvable w2 saved_for := by
  simp [SavedVariable.producer_resolvable, SavedVariable.stored_grad_fn, World.lock, h]

/-- C3. For a snapshot captured in world `w0` from a defined value, whose buffer
is still held and whose producer is resolvable, `unpack` in a world `w` throws
the stale-version error exactly when the current version of the buffer differs
from the stamp, which is the version at capture; after `k` in-place mutations of
the buffer since capture, with `0 < k < 2 ^ 32`, `unpack` throws that error and
returns no value. -/
theorem version_invariant (w0 w : World) (v : Variable) (is_output is_inplace_view : Bool)
    (s : SavedVariable) (saved_for : Option Nat) (k : Nat)
    (hs : s = SavedVariable.mk_from w0 v is_output is_inplace_view)
    (hv : v.defined = true)
    (hres : s.producer_resolvable w saved_for = true)
    (hres0 : s.producer_resolvable w0 saved_for = true)
    (hk : 0 < k) (hk2 : k < 2 ^ 32) :
    (s.unpack w saved_for = .error (s.staleVersionError w saved_for) ↔
      s.current_version w ≠ s.saved_version_) ∧
    s.saved_version_ = s.current_version w0 ∧
    s.unpack (w0.bump_versions v.version_counter k) saved_for
      = .error (s.staleVersionError (w0.bump_versions v.version_counter k) saved_for) ∧
    ∀ r, s.unpack (w0.bump_versions v.version_counter k) saved_for ≠ .ok r := by
  obtain ⟨hd, hc, hsv⟩ := mk_from_defined w0 v is_output is_inplace_view hv
  rw [← hs] at hd hc hsv
  have hdef : s.data_.defined = true := by
    rw [hd]
    exact hv
  have hcur : ∀ w1 : World, s.current_version w1 = w1.version v.version_counter % 2 ^ 32 := by
    intro w1
    simp [SavedVariable.current_version, hc]
  have hresk : s.producer_resolvable (w0.bump_versions v.version_counter k) saved_for
      = true := by
    rw [producer_resolvable_congr _ w0 s saved_for (bump_versions_alive w0 _ k)]
    exact hres0
  have hstale : s.current_version (w0.bump_versions v.version_counter k) ≠ s.saved_version_ := by
    rw [hcur, hsv, bump_versions_version]
    omega
  have hthrow := unpack_of_stale _ s saved_for hdef hresk hstale
  refine ⟨unpack_stale_iff w s saved_for hdef hres, ?_, hthrow, ?_⟩
  · rw [hcur, hsv]
  · intro r h
    rw [hthrow] at h
    cases h

theorem version_invariant_witness :
    ((SavedVariable.mk_from sampleWorld sampleLeaf false false).unpack sampleWorld none
        = .error ((SavedVariable.mk_from sampleWorld sampleLeaf false false).staleVersionError
            sampleWorld none) ↔
      (SavedVariable.mk_from sampleWorld sampleLeaf false false).current_version sampleWorld
        ≠ (SavedVariable.mk_from sampleWorld sampleLeaf false false).saved_version_) ∧
    (SavedVariable.mk_from sampleWorld sampleLeaf false false).saved_version_
      = (SavedVariable.mk_from sampleWorld sampleLeaf false false).current_version
          sampleWorld ∧
    (SavedVariable.mk_from sampleWorld sampleLeaf false false).unpack
        (sampleWorld.bump_versions sampleLeaf.version_counter 1) none
      = .error ((SavedVariable.mk_from sampleWorld sampleLeaf false false).staleVersionError
          (sampleWorld.bump_versions sampleLeaf.version_counter 1) none) ∧
    ∀ r, (SavedVariable.mk_from sampleWorld sampleLeaf false false).unpack
        (sampleWorld.bump_versions sampleLeaf.version_counter 1) none ≠ .ok r :=
  version_invariant sampleWorld sampleWorld sampleLeaf false false _ none 1 rfl rfl rfl rfl
    (by decide) (by decide)

/-! ## Copying into a snapshot -/

theorem unpack_setStorage (w : World) (id : Nat) (bs : List Byte) (s : SavedVariable)
    (saved_for : Option Nat) :
    s.unpack (w.setStorage id bs) saved_for = s.unpack w saved_for := rfl

theorem unpack_ok_data (w : World) (s : SavedVariable) (saved_for : Option Nat)
    (r : UnpackedVariable) (h : s.unpack w saved_for = .ok (some r)) :
    r.data = s.data_ := by
  simp only [SavedVariable.unpack] at h
  repeat' split at h
  all_goals first
    | (simp at h; done)
    | (simp only [Except.ok.injEq, Option.some.injEq] at h; rw [← h])

/-- C6. On a snapshot with a defined buffer and a source of the same byte
length, `copy_data_from` replaces the bytes of the buffer by the bytes of the
source and changes no version counter; every snapshot of the same buffer that
unpacked to a value before the copy unpacks to the same value after it, and
that value now points at the new bytes. -/
theorem copy_data_from_bypass (w : World) (s : SavedVariable) (src : TensorVal)
    (hdef : s.data_.defined = true) (hsrc : src.tensor.defined = true)
    (hsize : src.tensor.nbytes = s.data_.nbytes)
    (hsrclen : src.bytes.length = src.tensor.nbytes)
    (hbuf : (w.bytes s.data_).length = s.data_.nbytes) :
    ∃ w1, s.copy_data_from w src = { world := w1, self := s, thrown := none } ∧
      w1.bytes s.data_ = src.bytes ∧
      w1.version = w.version ∧
      s.current_version w1 = s.current_version w ∧
      ∀ (s2 : SavedVariable) (saved_for : Option Nat) (r : UnpackedVariable),
        s2.data_.storage = s.data_.storage →
        s2.unpack w saved_for = .ok (some r) →
        s2.unpack w1 saved_for = .ok (some r) ∧ w1.bytes r.data = src.bytes := by
  have htake : src.bytes.take s.data_.nbytes = src.bytes :=
    List.take_of_length_le (by omega)
  have hcpy : memcpy (w.bytes s.data_) (src.bytes.take s.data_.nbytes) = src.bytes := by
    rw [htake]
    exact memcpy_full _ _ (by omega)
  refine ⟨_, copy_data_from_ok w s src hdef hsrc hsize, ?_, rfl, rfl, ?_⟩
  · rw [World.bytes_setStorage, hcpy]
  · intro s2 saved_for r hst hun
    refine ⟨?_, ?_⟩
    · rw [unpack_setStorage]
      exact hun
    · rw [unpack_ok_data w s2 saved_for r hun]
      simp only [World.bytes, World.setStorage, hst, if_true]
      exact hcpy

/-! ## Capture -/

/-- C9. The constructor stores, for a defined value: the accumulator (weakly)
and no producer for a leaf; otherwise the producer strongly when `is_output` is
false; otherwise the producer weakly when `is_inplace_view` is true; otherwise
no reference.  It records whether the value has a producer, its output slot,
its requires-grad flag, and the current version of the buffer as the stamp.
For an undefined value it records nothing and stays marked as default
constructed. -/
theorem capture_provenance_policy (w : World) (v : Variable)
    (is_output is_inplace_view : Bool) :
    SavedVariable.mk_from w v is_output is_inplace_view =
      (if v.defined then
        { data_ := v.tensor_data
          grad_accumulator_ := if v.is_leaf then v.grad_accumulator else none
          grad_fn_ := if !v.is_leaf && !is_output then v.grad_fn else none
          weak_grad_fn_ :=
            if !v.is_leaf && is_output && is_inplace_view then v.grad_fn else none
          has_grad_fn_ := !v.is_leaf
          output_nr_ := v.output_nr
          requires_grad_ := v.requires_grad
          version_counter_ := some v.version_counter
          saved_version_ := w.version v.version_counter % 2 ^ 32
          is_inplace_view_ := is_inplace_view
          was_default_constructed_ := false }
      else
        { data_ := Tensor.undefined, grad_accumulator_ := none, grad_fn_ := none,
          weak_grad_fn_ := none, has_grad_fn_ := false, output_nr_ := 0,
          requires_grad_ := false, version_counter_ := none, saved_version_ := 0,
          is_inplace_view_ := false, was_default_constructed_ := true }) := by
  unfold SavedVariable.mk_from
  cases v.defined <;> cases v.is_leaf <;> cases is_output <;> cases is_inplace_view <;>
    simp [SavedVariable.current_version]

/-! ## Producer resolution -/

theorem unpack_of_inplace_view_not_output (w0 w : World) (v : Variable)
    (hv : v.defined = true) (hnl : v.is_leaf = false) :
    (SavedVariable.mk_from w0 v false true).grad_fn_ = v.grad_fn ∧
    (SavedVariable.mk_from w0 v false true).unpack w none
      = .error (.runtime_error "No grad_fn for non-leaf saved variable") := by
  have hd : v.tensor_data.defined = true := hv
  simp [SavedVariable.mk_from, SavedVariable.unpack, SavedVariable.stored_grad_fn,
    World.lock, hv, hnl, hd]

theorem unpack_of_strong_reference (w0 w : World) (v : Variable) (p : Nat)
    (hv : v.defined = true) (hp : v.grad_fn = some p)
    (hver : w.version v.version_counter % 2 ^ 32 = w0.version v.version_counter % 2 ^ 32) :
    ((SavedVariable.mk_from w0 v false false).unpack w none).map
        (Option.map UnpackedVariable.grad_fn)
      = .ok (some (some p)) := by
  have hd : v.tensor_data.defined = true := hv
  have hnl : v.is_leaf = false := by simp [Variable.is_leaf, hp]
  have hver2 : w.version v.version_counter % 4294967296
      = w0.version v.version_counter % 4294967296 := hver
  simp [SavedVariable.mk_from, SavedVariable.unpack, SavedVariable.stored_grad_fn,
    SavedVariable.current_version, UnpackedVariable.grad_fn, hv, hnl, hd, hp, hver2,
    Except.map]

/-- C10, the failing input.  A snapshot of a non-leaf value captured with
`is_output = false` and `is_inplace_view = true` holds the producer strongly and
holds no weak reference, yet `unpack` without a fallback throws the
missing-producer error; with `is_inplace_view = false` the same capture unpacks
to a value produced by that producer. -/
theorem unpack_ignores_strong_reference_of_inplace_view :
    (SavedVariable.mk_from sampleWorld sampleResult false true).grad_fn_ = some 7 ∧
    (SavedVariable.mk_from sampleWorld sampleResult false true).weak_grad_fn_ = none ∧
    (SavedVariable.mk_from sampleWorld sampleResult false true).current_version sampleWorld
      = (SavedVariable.mk_from sampleWorld sampleResult false true).saved_version_ ∧
    (SavedVariable.mk_from sampleWorld sampleResult false true).unpack sampleWorld none
      = .error (.runtime_error "No grad_fn for non-leaf saved variable") ∧
    ((SavedVariable.mk_from sampleWorld sampleResult false false).unpack sampleWorld none).map
        (Option.map UnpackedVariable.grad_fn)
      = .ok (some (some 7)) := by
  refine ⟨rfl, rfl, rfl, rfl, rfl⟩

/-! ## The save walk -/

theorem forEdges_single (f : Option Nat → FullStack → Walk FullStack) (e : Option Nat)
    (stk : FullStack) : forEdges f [e] stk = f e stk := by
  simp only [forEdges]
  split
  · next h => rw [h]
  · next other h => rfl

theorem recurseGraph_absent {σ : Type} (api : NodeApi σ) (s : σ) (fuel : Nat)
    (stk : FullStack) : recurseGraph api s fuel none stk = some (.ok stk) := by
  cases fuel <;> rfl

theorem queuesOf_append {σ : Type} (api : NodeApi σ) (s : σ) (l1 l2 : List Nat) :
    queuesOf api s (l1 ++ l2) = queuesOf api s l1 ++ queuesOf api s l2 := by
  simp [queuesOf]

theorem queuesOf_cons {σ : Type} (api : NodeApi σ) (s : σ) (n : Nat) (l : List Nat) :
    queuesOf api s (n :: l) =
      (if api.can_serialize_variables s n then [api.serialize_variables s n] else [])
        ++ queuesOf api s l := by
  by_cases h : api.can_serialize_variables s n = true <;> simp [queuesOf, h]

theorem recurseGraph_node {σ : Type} (api : NodeApi σ) (s : σ) (fuel n : Nat)
    (stk : FullStack)
    (hblob : api.can_serialize_variables s n = true →
      (frontBlobSize (api.serialize_variables s n)).isSome = true) :
    recurseGraph api s (fuel + 1) (some n) stk =
      forEdges (recurseGraph api s fuel) (api.next_edges s n)
        (stk ++ (if api.can_serialize_variables s n then [api.serialize_variables s n]
                 else [])) := by
  by_cases h : api.can_serialize_variables s n = true
  · obtain ⟨sz, hsz⟩ := Option.isSome_iff_exists.mp (hblob h)
    simp [recurseGraph, h, hsz]
  · simp [recurseGraph, h]

theorem forEdges_preorder {σ : Type} (api : NodeApi σ) (s : σ)
    (hblob : ∀ n, api.can_serialize_variables s n = true →
      (frontBlobSize (api.serialize_variables s n)).isSome = true)
    (es : List (Option Nat)) (visits : List Nat) (h : PreOrder api s es visits) :
    ∃ fuel0, ∀ fuel, fuel0 ≤ fuel → ∀ stk,
      forEdges (recurseGraph api s fuel) es stk = some (.ok (stk ++ queuesOf api s visits)) := by
  induction h with
  | nil => exact ⟨0, fun fuel _ stk => by simp [forEdges, queuesOf]⟩
  | absent _ ih =>
    obtain ⟨f0, hf0⟩ := ih
    refine ⟨f0, fun fuel hfuel stk => ?_⟩
    simp only [forEdges, recurseGraph_absent]
    exact hf0 fuel hfuel stk
  | @node n es l1 l2 _ _ ih1 ih2 =>
    obtain ⟨f1, hf1⟩ := ih1
    obtain ⟨f2, hf2⟩ := ih2
    refine ⟨max (f1 + 1) f2, fun fuel hfuel stk => ?_⟩
    obtain ⟨fuel1, rfl⟩ : ∃ k, fuel = k + 1 := ⟨fuel - 1, by omega⟩
    simp only [forEdges]
    rw [recurseGraph_node api s fuel1 n stk (hblob n), hf1 fuel1 (by omega)]
    simp only []
    rw [hf2 (fuel1 + 1) (by omega)]
    rw [List.cons_append, queuesOf_cons, queuesOf_append]
    simp only [List.append_assoc]

theorem preorder_exists_of_edges {σ : Type} (api : NodeApi σ) (s : σ)
    (es : List (Option Nat))
    (h : ∀ m, some m ∈ es → ∃ l, PreOrder api s (api.next_edges s m) l) :
    ∃ l, PreOrder api s es l := by
  induction es with
  | nil => exact ⟨[], .nil⟩
  | cons e es ih =>
    obtain ⟨l2, hl2⟩ := ih (fun m hm => h m (List.mem_cons_of_mem _ hm))
    cases e with
    | none => exact ⟨l2, .absent hl2⟩
    | some n =>
      obtain ⟨l1, hl1⟩ := h n (List.mem_cons_self _ _)
      exact ⟨n :: l1 ++ l2, .node hl1 hl2⟩

theorem preorder_exists_of_rank {σ : Type} (api : NodeApi σ) (s : σ) (rank : Nat → Nat)
    (hacyclic : ∀ n m, some m ∈ api.next_edges s n → rank m < rank n) (r : Nat) :
    ∀ n, rank n < r → ∃ l, PreOrder api s (api.next_edges s n) l := by
  induction r with
  | zero => intro n hn; omega
  | succ r ih =>
    intro n hn
    apply preorder_exists_of_edges
    intro m hm
    exact ih m (by have := hacyclic n m hm; omega)

theorem preorder_unique {σ : Type} (api : NodeApi σ) (s : σ) (es : List (Option Nat))
    (l1 l2 : List Nat) (h1 : PreOrder api s es l1) (h2 : PreOrder api s es l2) : l1 = l2 := by
  induction h1 generalizing l2 with
  | nil => cases h2; rfl
  | absent _ ih => cases h2 with
    | absent h => exact ih _ h
  | node _ _ iha ihb => cases h2 with
    | node ha hb => rw [iha _ ha, ihb _ hb]

/-- C8. On a finite acyclic graph, whose serializable nodes each emit a queue
with a readable first blob, `recurseGraph` returns once it has enough fuel,
keeps the entries already on the stack and appends the queues of the
serializable nodes in depth-first pre-order: a node before the nodes its edges
lead to, edges in their list order, nodes that cannot serialize skipped but
descended through.  The pre-order is unique.  An absent root appends nothing. -/
theorem recurseGraph_appends_preorder {σ : Type} (api : NodeApi σ) (s : σ) (rank : Nat → Nat)
    (root : Option Nat) (stk : FullStack)
    (hacyclic : ∀ n m, some m ∈ api.next_edges s n → rank m < rank n)
    (hblob : ∀ n, api.can_serialize_variables s n = true →
      (frontBlobSize (api.serialize_variables s n)).isSome = true) :
    (∃ visits, PreOrder api s [root] visits ∧
      (∀ other, PreOrder api s [root] other → other = visits) ∧
      ∃ fuel0, ∀ fuel, fuel0 ≤ fuel →
        recurseGraph api s fuel root stk = some (.ok (stk ++ queuesOf api s visits))) ∧
    ∀ fuel, recurseGraph api s fuel none stk = some (.ok stk) := by
  refine ⟨?_, fun fuel => recurseGraph_absent api s fuel stk⟩
  have hex : ∃ visits, PreOrder api s [root] visits := by
    apply preorder_exists_of_edges
    intro m _
    exact preorder_exists_of_rank api s rank hacyclic (rank m + 1) m (by omega)
  obtain ⟨visits, hvis⟩ := hex
  refine ⟨visits, hvis, fun other ho => preorder_unique api s _ _ _ ho hvis, ?_⟩
  obtain ⟨f0, hf0⟩ := forEdges_preorder api s hblob _ _ hvis
  refine ⟨f0, fun fuel hfuel => ?_⟩
  rw [← forEdges_single (recurseGraph api s fuel) root stk]
  exact hf0 fuel hfuel stk

theorem recurseGraph_appends_preorder_witness :
    (∃ visits, PreOrder chainApi [] [some 0] visits ∧
      (∀ other, PreOrder chainApi [] [some 0] other → other = visits) ∧
      ∃ fuel0, ∀ fuel, fuel0 ≤ fuel →
        recurseGraph chainApi [] fuel (some 0) [[emptyBlob]]
          = some (.ok ([[emptyBlob]] ++ queuesOf chainApi [] visits))) ∧
    ∀ fuel, recurseGraph chainApi [] fuel none [[emptyBlob]] = some (.ok [[emptyBlob]]) :=
  recurseGraph_appends_preorder chainApi [] chainRank (some 0) [[emptyBlob]]
    (by
      intro n m h
      by_cases hn : n = 0
      · subst hn
        simp [chainApi] at h
        subst h
        decide
      · simp [chainApi, hn] at h)
    (by intro n _; rfl)

/-! ## The restore walk -/

/-- C7, the failing input.  On the chain `0 → 1` of two serializable nodes the
save walk pushes two queues; the restore walk then makes one
`deserialize_variables` call, on node 0 with the first queue, never restores
node 1, and leaves two queues on the stack: the second one and a fresh queue
of node 1 pushed by the `recurseGraph` call in its loop. -/
theorem recurseRestore_restores_root_only :
    recurseGraph chainApi [] 2 (some 0) []
      = some (.ok [chainApi.serialize_variables [] 0, chainApi.serialize_variables [] 1]) ∧
    recurseRestore chainApi [] 2 (some 0)
        [chainApi.serialize_variables [] 0, chainApi.serialize_variables [] 1]
      = some (.ok ([(0, chainApi.serialize_variables [] 0)],
          [chainApi.serialize_variables [] 1, chainApi.serialize_variables [] 1])) ∧
    chainApi.serialize_variables [] 0 ≠ chainApi.serialize_variables [] 1 := by
  refine ⟨rfl, rfl, by decide⟩

/-! ## Instances on the sample objects -/

theorem blob_round_trip_witness :
    ∃ blob w3, sampleSnapshot.serialize_to_blob sampleWorld = .ok blob ∧
      sampleTarget.deserialize_from_blob sampleWorld blob
        = { world := w3, self := sampleTarget, thrown := none } ∧
      w3.bytes sampleTarget.data_ = sampleWorld.bytes sampleSnapshot.data_ ∧
      (∀ id, id ≠ sampleTarget.data_.storage → w3.storage id = sampleWorld.storage id) ∧
      w3.version = sampleWorld.version ∧
      (sampleWorld = sampleWorld → sampleSnapshot.data_.storage = sampleTarget.data_.storage →
        w3.storage = sampleWorld.storage) :=
  blob_round_trip sampleWorld sampleWorld sampleSnapshot sampleTarget rfl rfl rfl rfl
    (by decide) (by decide) (by decide) (by decide)

theorem serialize_to_blob_wire_format_witness :
    ∃ blob, sampleSnapshot.serialize_to_blob sampleWorld = .ok blob ∧
      blob.length = sizeof_size_t + sampleSnapshot.data_.nbytes ∧
      blob.take sizeof_size_t = storeSizeT sampleSnapshot.data_.nbytes ∧
      wordValue (blob.take sizeof_size_t) = sampleSnapshot.data_.nbytes ∧
      blob.drop sizeof_size_t = sampleWorld.bytes sampleSnapshot.data_ ∧
      loadSizeT blob = some sampleSnapshot.data_.nbytes ∧
      frontBlobSize (blob :: []) = some sampleSnapshot.data_.nbytes :=
  serialize_to_blob_wire_format sampleWorld sampleSnapshot [] rfl rfl (by decide) (by decide)

theorem copy_data_from_bypass_witness :
    ∃ w1, sampleSnapshot.copy_data_from sampleWorld sampleSource
        = { world := w1, self := sampleSnapshot, thrown := none } ∧
      w1.bytes sampleSnapshot.data_ = sampleSource.bytes ∧
      w1.version = sampleWorld.version ∧
      sampleSnapshot.current_version w1 = sampleSnapshot.current_version sampleWorld ∧
      ∀ (s2 : SavedVariable) (saved_for : Option Nat) (r : UnpackedVariable),
        s2.data_.storage = sampleSnapshot.data_.storage →
        s2.unpack sampleWorld saved_for = .ok (some r) →
        s2.unpack w1 saved_for = .ok (some r) ∧ w1.bytes r.data = sampleSource.bytes :=
  copy_data_from_bypass sampleWorld sampleSnapshot sampleSource rfl rfl (by decide)
    (by decide) (by decide)

/-! ## Missing producer -/

theorem mk_from_fields (w : World) (v : Variable) (is_output is_inplace_view : Bool)
    (hv : v.defined = true) :
    (SavedVariable.mk_from w v is_output is_inplace_view).data_.defined = true ∧
    (SavedVariable.mk_from w v is_output is_inplace_view).has_grad_fn_ = !v.is_leaf ∧
    (SavedVariable.mk_from w v is_output is_inplace_view).is_inplace_view_ = is_inplace_view ∧
    (SavedVariable.mk_from w v is_output is_inplace_view).output_nr_ = v.output_nr ∧
    (SavedVariable.mk_from w v is_output is_inplace_view).requires_grad_ = v.requires_grad ∧
    (SavedVariable.mk_from w v is_output is_inplace_view).was_default_constructed_ = false ∧
    (SavedVariable.mk_from w v is_output is_inplace_view).grad_fn_
      = (if !v.is_leaf && !is_output then v.grad_fn else none) ∧
    (SavedVariable.mk_from w v is_output is_inplace_view).weak_grad_fn_
      = (if !v.is_leaf && is_output && is_inplace_view then v.grad_fn else none) ∧
    (SavedVariable.mk_from w v is_output is_inplace_view).grad_accumulator_
      = (if v.is_leaf then v.grad_accumulator else none) := by
  have hd : v.tensor_data.defined = true := hv
  rw [capture_provenance_policy, if_pos hv]
  exact ⟨hd, rfl, rfl, rfl, rfl, rfl, rfl, rfl, rfl⟩

theorem unpack_no_grad_fn (w : World) (s : SavedVariable)
    (hdef : s.data_.defined = true) (hg : s.has_grad_fn_ = true)
    (hst : s.stored_grad_fn w = none) :
    s.unpack w none = .error (.runtime_error "No grad_fn for non-leaf saved variable") := by
  simp [SavedVariable.unpack, hdef, hg, hst]

theorem resolved_grad_fn_fallback (w : World) (s : SavedVariable) (saved_for : Option Nat)
    (hg : s.has_grad_fn_ = true) (hst : s.stored_grad_fn w = none) :
    s.resolved_grad_fn w saved_for = saved_for := by
  simp [SavedVariable.resolved_grad_fn, hg, hst]

/-- C11. A snapshot of a defined non-leaf value captured as the own output of
its producer `p`, without `is_inplace_view` or with the producer released by
the time of `unpack`, resolves no producer.  Without a fallback `unpack` throws
the missing-producer error, whatever the version of the buffer is; with a
fallback `f` and an unchanged version it returns a value produced by `f` at
the captured output slot. -/
theorem missing_producer (w0 w : World) (v : Variable) (is_inplace_view : Bool) (p f : Nat)
    (s : SavedVariable)
    (hs : s = SavedVariable.mk_from w0 v true is_inplace_view)
    (hv : v.defined = true) (hp : v.grad_fn = some p)
    (hnone : is_inplace_view = false ∨ w.alive p = false) :
    s.stored_grad_fn w = none ∧
    s.unpack w none = .error (.runtime_error "No grad_fn for non-leaf saved variable") ∧
    (s.current_version w = s.saved_version_ →
      ∃ u, s.unpack w (some f) = .ok (some u) ∧
        u.provenance = .edge f v.output_nr ∧ u.grad_fn = some f) := by
  have hnl : v.is_leaf = false := by simp [Variable.is_leaf, hp]
  obtain ⟨hdef, hg, hiv, hnr, -, -, hgf, hwk, -⟩ :=
    mk_from_fields w0 v true is_inplace_view hv
  rw [← hs] at hdef hg hiv hnr hgf hwk
  simp only [hnl, Bool.not_false, Bool.not_true, Bool.and_false, Bool.true_and,
    Bool.false_eq_true, if_false] at hg hgf hwk
  have hst : s.stored_grad_fn w = none := by
    unfold SavedVariable.stored_grad_fn
    rw [hiv, hgf, hwk]
    cases hnone with
    | inl h => simp [h]
    | inr h => cases is_inplace_view <;> simp [World.lock, hp, h]
  refine ⟨hst, unpack_no_grad_fn w s hdef hg hst, fun hver => ?_⟩
  have hres : s.producer_resolvable w (some f) = true := by
    simp [SavedVariable.producer_resolvable]
  have hrs := resolved_grad_fn_fallback w s (some f) hg hst
  refine ⟨s.unpacked w (some f), ?_, ?_, ?_⟩
  · rw [unpack_of_fresh w s (some f) hdef hres hver, hrs]
    simp
  · simp [SavedVariable.unpacked, hrs, hnr]
  · simp [SavedVariable.unpacked, UnpackedVariable.grad_fn, hrs]

theorem missing_producer_witness :
    sampleOwnOutput.stored_grad_fn sampleWorld = none ∧
    sampleOwnOutput.unpack sampleWorld none
      = .error (.runtime_error "No grad_fn for non-leaf saved variable") ∧
    (sampleOwnOutput.current_version sampleWorld = sampleOwnOutput.saved_version_ →
      ∃ u, sampleOwnOutput.unpack sampleWorld (some 9) = .ok (some u) ∧
        u.provenance = .edge 9 sampleResult.output_nr ∧ u.grad_fn = some 9) :=
  missing_producer sampleWorld sampleWorld sampleResult false 7 9 sampleOwnOutput rfl rfl rfl
    (Or.inl rfl)

/-! ## Consumed and empty snapshots -/

/-- C12. On a snapshot whose buffer is undefined, `unpack` throws
`ERR_BACKWARD_TWICE` exactly when the snapshot is not marked as default
constructed, and otherwise returns the undefined variable; neither the fallback
nor any version plays a part.  The constructor clears the mark exactly for a
defined value, and `reset_data` keeps the mark and leaves the buffer
undefined. -/
theorem consumed_versus_empty (w : World) (s : SavedVariable) (saved_for : Option Nat)
    (hundef : s.data_.defined = false) :
    (s.unpack w saved_for = .error (.runtime_error ERR_BACKWARD_TWICE) ↔
      s.was_default_constructed_ = false) ∧
    (s.unpack w saved_for = .ok none ↔ s.was_default_constructed_ = true) ∧
    (∀ (w0 : World) (v : Variable) (is_output is_inplace_view : Bool),
      (SavedVariable.mk_from w0 v is_output is_inplace_view).was_default_constructed_
        = !v.defined ∧
      (SavedVariable.mk_from w0 v is_output is_inplace_view).reset_data.was_default_constructed_
        = !v.defined ∧
      (SavedVariable.mk_from w0 v is_output is_inplace_view).reset_data.data_.defined
        = false) ∧
    ({} : SavedVariable).was_default_constructed_ = true ∧
    ({} : SavedVariable).data_.defined = false := by
  refine ⟨?_, ?_, ?_, rfl, rfl⟩
  · cases hc : s.was_default_constructed_ <;> simp [SavedVariable.unpack, hundef, hc]
  · cases hc : s.was_default_constructed_ <;> simp [SavedVariable.unpack, hundef, hc]
  · intro w0 v is_output is_inplace_view
    rw [capture_provenance_policy]
    cases hv : v.defined <;> simp [SavedVariable.reset_data, Tensor.undefined]

theorem consumed_versus_empty_witness :
    (sampleConsumed.unpack sampleWorld (some 9) = .error (.runtime_error ERR_BACKWARD_TWICE) ↔
      sampleConsumed.was_default_constructed_ = false) ∧
    (sampleConsumed.unpack sampleWorld (some 9) = .ok none ↔
      sampleConsumed.was_default_constructed_ = true) ∧
    (∀ (w0 : World) (v : Variable) (is_output is_inplace_view : Bool),
      (SavedVariable.mk_from w0 v is_output is_inplace_view).was_default_constructed_
        = !v.defined ∧
      (SavedVariable.mk_from w0 v is_output is_inplace_view).reset_data.was_default_constructed_
        = !v.defined ∧
      (SavedVariable.mk_from w0 v is_output is_inplace_view).reset_data.data_.defined
        = false) ∧
    ({} : SavedVariable).was_default_constructed_ = true ∧
    ({} : SavedVariable).data_.defined = false :=
  consumed_versus_empty sampleWorld sampleConsumed (some 9) rfl

/-! ## The restored value -/

theorem unpack_ok_eq (w : World) (s : SavedVariable) (saved_for : Option Nat)
    (r : Option UnpackedVariable) (hdef : s.data_.defined = true)
    (h : s.unpack w saved_for = .ok r) :
    r = some (s.unpacked w saved_for) ∧ s.saved_version_ = s.current_version w := by
  have hres : s.producer_resolvable w saved_for = true := by
    by_contra hn
    simp only [SavedVariable.producer_resolvable, Bool.or_eq_true, Bool.not_eq_true',
      not_or, Bool.not_eq_false, Option.not_isSome_iff_eq_none] at hn
    obtain ⟨⟨hg, hst⟩, hf⟩ := hn
    simp [SavedVariable.unpack, hdef, hg, hst, hf] at h
  by_cases hver : s.current_version w = s.saved_version_
  · rw [unpack_of_fresh w s saved_for hdef hres hver] at h
    split at h
    · cases h
    · simp only [Except.ok.injEq] at h
      exact ⟨h.symm, hver.symm⟩
  · rw [unpack_of_stale w s saved_for hdef hres hver] at h
    cases h

theorem current_version_congr (w1 w2 : World) (s : SavedVariable)
    (h : w1.version = w2.version) : s.current_version w1 = s.current_version w2 := by
  simp [SavedVariable.current_version, h]

theorem stored_grad_fn_congr (w1 w2 : World) (s : SavedVariable) (h : w1.alive = w2.alive) :
    s.stored_grad_fn w1 = s.stored_grad_fn w2 := by
  simp [SavedVariable.stored_grad_fn, World.lock, h]

theorem unpacked_congr (w1 w2 : World) (s : SavedVariable) (saved_for : Option Nat)
    (h : w1.alive = w2.alive) : s.unpacked w1 saved_for = s.unpacked w2 saved_for := by
  simp [SavedVariable.unpacked, SavedVariable.resolved_grad_fn, stored_grad_fn_congr w1 w2 s h]

/-- C13. When `unpack` returns on a snapshot taken of a defined value, the
variable it returns uses the very tensor of the snapshot, so it reads the same
storage in every world; its version is the recorded stamp, which equals the
current version of the buffer; it is produced by the resolved producer at the
captured output slot when there is one, and otherwise is a leaf carrying the
captured requires-grad flag; it carries the accumulator reference of the
snapshot.  The snapshot is an argument that `unpack` cannot change, and
unpacking again in a world with the same versions and the same live nodes
returns the same variable. -/
theorem restored_value (w w2 : World) (s : SavedVariable) (saved_for : Option Nat)
    (r : Option UnpackedVariable)
    (hcap : s.was_default_constructed_ = false)
    (h : s.unpack w saved_for = .ok r)
    (hversion : w2.version = w.version) (halive : w2.alive = w.alive) :
    ∃ u, r = some u ∧
      u.data = s.data_ ∧
      (∀ w3 : World, w3.bytes u.data = w3.bytes s.data_) ∧
      u.version = s.saved_version_ ∧
      s.saved_version_ = s.current_version w ∧
      u.provenance =
        (match s.resolved_grad_fn w saved_for with
         | some g => .edge g s.output_nr_
         | none => .leaf s.requires_grad_) ∧
      u.grad_accumulator = s.grad_accumulator_ ∧
      s.unpack w2 saved_for = .ok (some u) := by
  have hdef : s.data_.defined = true := by
    by_contra hn
    simp [SavedVariable.unpack, hn, hcap] at h
  obtain ⟨hr, hver⟩ := unpack_ok_eq w s saved_for r hdef h
  refine ⟨s.unpacked w saved_for, hr, rfl, fun _ => rfl, rfl, hver, rfl, rfl, ?_⟩
  have hres : s.producer_resolvable w saved_for = true := by
    by_contra hn
    simp only [SavedVariable.producer_resolvable, Bool.or_eq_true, Bool.not_eq_true',
      not_or, Bool.not_eq_false, Option.not_isSome_iff_eq_none] at hn
    obtain ⟨⟨hg, hst⟩, hf⟩ := hn
    simp [SavedVariable.unpack, hdef, hg, hst, hf] at h
  have hres2 : s.producer_resolvable w2 saved_for = true := by
    rw [producer_resolvable_congr w2 w s saved_for halive]
    exact hres
  have hver2 : s.current_version w2 = s.saved_version_ := by
    rw [current_version_congr w2 w s hversion]
    exact hver.symm
  have h1 := unpack_of_fresh w s saved_for hdef hres hver.symm
  rw [h, hr] at h1
  rw [unpack_of_fresh w2 s saved_for hdef hres2 hver2, unpacked_congr w2 w s saved_for halive]
  have he : w2.expired s.grad_accumulator_ = w.expired s.grad_accumulator_ := by
    simp [World.expired, World.lock, halive]
  have hrs : s.resolved_grad_fn w2 saved_for = s.resolved_grad_fn w saved_for := by
    simp [SavedVariable.resolved_grad_fn, stored_grad_fn_congr w2 w s halive]
  rw [he, hrs]
  exact h1.symm

theorem restored_value_witness :
    ∃ u, some (sampleSnapshot.unpacked sampleWorld none) = some u ∧
      u.data = sampleSnapshot.data_ ∧
      (∀ w3 : World, w3.bytes u.data = w3.bytes sampleSnapshot.data_) ∧
      u.version = sampleSnapshot.saved_version_ ∧
      sampleSnapshot.saved_version_ = sampleSnapshot.current_version sampleWorld ∧
      u.provenance =
        (match sampleSnapshot.resolved_grad_fn sampleWorld none with
         | some g => .edge g sampleSnapshot.output_nr_
         | none => .leaf sampleSnapshot.requires_grad_) ∧
      u.grad_accumulator = sampleSnapshot.grad_accumulator_ ∧
      sampleSnapshot.unpack (sampleWorld.setStorage 0 [5, 5, 5, 5]) none = .ok (some u) :=
  restored_value sampleWorld (sampleWorld.setStorage 0 [5, 5, 5, 5]) sampleSnapshot none
    (some (sampleSnapshot.unpacked sampleWorld none)) rfl rfl rfl rfl

/-! ## Missing accumulator -/

theorem unpack_logic_error_resolves_none (w : World) (s : SavedVariable)
    (saved_for : Option Nat) (msg : String)
    (h : s.unpack w saved_for = .error (.logic_error msg)) :
    s.resolved_grad_fn w saved_for = none := by
  by_cases hdef : s.data_.defined = true
  · by_cases hres : s.producer_resolvable w saved_for = true
    · by_cases hver : s.current_version w = s.saved_version_
      · rw [unpack_of_fresh w s saved_for hdef hres hver] at h
        split at h
        · next hc =>
          simp only [Bool.and_eq_true, Option.isNone_iff_eq_none] at hc
          exact hc.1.2
        · cases h
      · rw [unpack_of_stale w s saved_for hdef hres hver] at h
        simp [SavedVariable.staleVersionError] at h
    · simp only [SavedVariable.producer_resolvable, Bool.or_eq_true, Bool.not_eq_true',
        not_or, Bool.not_eq_false, Option.not_isSome_iff_eq_none] at hres
      obtain ⟨⟨hg, hst⟩, hf⟩ := hres
      simp [SavedVariable.unpack, hdef, hg, hst, hf] at h
  · cases hc : s.was_default_constructed_ <;> simp [SavedVariable.unpack, hdef, hc] at h

/-- C14. On the snapshot of a defined leaf with an unchanged version, `unpack`
throws the missing-accumulator error exactly when the value required grad and
the weak accumulator reference has expired, whatever fallback is passed; a leaf
that does not require grad unpacks to a value.  No snapshot for which `unpack`
resolved a producer throws this error. -/
theorem missing_accumulator (w0 w : World) (v : Variable) (is_output is_inplace_view : Bool)
    (saved_for : Option Nat) (s : SavedVariable)
    (hs : s = SavedVariable.mk_from w0 v is_output is_inplace_view)
    (hv : v.defined = true) (hleaf : v.is_leaf = true)
    (hver : s.current_version w = s.saved_version_) :
    (s.unpack w saved_for = .error (.logic_error "No grad accumulator for a saved leaf!") ↔
      (v.requires_grad = true ∧ w.expired v.grad_accumulator = true)) ∧
    (v.requires_grad = false → ∃ u, s.unpack w saved_for = .ok (some u)) ∧
    (∀ (w1 : World) (s1 : SavedVariable) (f1 : Option Nat) (msg : String),
      s1.unpack w1 f1 = .error (.logic_error msg) → s1.resolved_grad_fn w1 f1 = none) := by
  obtain ⟨hdef, hg, hiv, -, hrq, -, hgf, hwk, hacc⟩ :=
    mk_from_fields w0 v is_output is_inplace_view hv
  rw [← hs] at hdef hg hiv hrq hgf hwk hacc
  simp only [hleaf, Bool.not_true, Bool.false_and, Bool.false_eq_true, if_false,
    if_true] at hg hgf hwk hacc
  have hst : s.stored_grad_fn w = none := by
    unfold SavedVariable.stored_grad_fn
    rw [hgf, hwk]
    cases s.is_inplace_view_ <;> simp [World.lock]
  have hrs : s.resolved_grad_fn w saved_for = none := by
    simp [SavedVariable.resolved_grad_fn, hg, hst]
  have hres : s.producer_resolvable w saved_for = true := by
    simp [SavedVariable.producer_resolvable, hg]
  have hun := unpack_of_fresh w s saved_for hdef hres hver
  rw [hrs, hrq, hacc] at hun
  refine ⟨?_, ?_, fun w1 s1 f1 msg h => unpack_logic_error_resolves_none w1 s1 f1 msg h⟩
  · rw [hun]
    cases v.requires_grad <;> cases w.expired v.grad_accumulator <;> simp
  · intro hq
    rw [hun]
    exact ⟨s.unpacked w saved_for, by simp [hq]⟩

theorem missing_accumulator_witness :
    (sampleSnapshot.unpack sampleWorldReleased (some 9)
        = .error (.logic_error "No grad accumulator for a saved leaf!") ↔
      (sampleLeaf.requires_grad = true ∧
        sampleWorldReleased.expired sampleLeaf.grad_accumulator = true)) ∧
    (sampleLeaf.requires_grad = false →
      ∃ u, sampleSnapshot.unpack sampleWorldReleased (some 9) = .ok (some u)) ∧
    (∀ (w1 : World) (s1 : SavedVariable) (f1 : Option Nat) (msg : String),
      s1.unpack w1 f1 = .error (.logic_error msg) → s1.resolved_grad_fn w1 f1 = none) :=
  missing_accumulator sampleWorld sampleWorldReleased sampleLeaf false false (some 9)
    sampleSnapshot rfl rfl rfl rfl

/-! ## The copy: mismatch, flag -/

theorem copy_data_from_cases (w : World) (s : SavedVariable) (src : TensorVal) :
    (∃ e, s.copy_data_from w src =
        { world := w, self := { s with data_ := s.data_.set_requires_grad false },
          thrown := some e } ∧
      (s.data_.set_requires_grad false).copy_ w src = .error e) ∨
    (s.copy_data_from w src =
        { world := w.setStorage s.data_.storage
            (memcpy (w.bytes s.data_) (src.bytes.take s.data_.nbytes)),
          self := s, thrown := none } ∧
      (s.data_.set_requires_grad false).copy_ w src =
        .ok (w.setStorage s.data_.storage
          (memcpy (w.bytes s.data_) (src.bytes.take s.data_.nbytes)))) := by
  unfold SavedVariable.copy_data_from
  simp only []
  cases hc : (s.data_.set_requires_grad false).copy_ w src with
  | error e => exact Or.inl ⟨e, rfl, rfl⟩
  | ok w1 =>
    right
    have hw1 : w1 = w.setStorage s.data_.storage
        (memcpy (w.bytes s.data_) (src.bytes.take s.data_.nbytes)) := by
      unfold Tensor.copy_ at hc
      split at hc
      · cases hc
      · split at hc
        · cases hc
        · split at hc
          · cases hc
          · simp only [Except.ok.injEq] at hc
            rw [← hc]
            rfl
    subst hw1
    exact ⟨rfl, rfl⟩

/-- C15. On a snapshot with a defined buffer, a defined source whose byte length
differs from that of the buffer makes `copy_data_from` throw the shape-mismatch
error of `copy_`; the memory, and so the content of the buffer, is as before.
The snapshot is left with the requires-grad flag of its buffer cleared. -/
theorem copy_data_from_rejects_mismatch (w : World) (s : SavedVariable) (src : TensorVal)
    (hdef : s.data_.defined = true) (hsrc : src.tensor.defined = true)
    (hne : src.tensor.nbytes ≠ s.data_.nbytes) :
    (s.copy_data_from w src).thrown = some (.c10_error "ShapeMismatchError") ∧
    (s.copy_data_from w src).returnsNormally = false ∧
    (s.copy_data_from w src).world.bytes s.data_ = w.bytes s.data_ ∧
    (s.copy_data_from w src).world.storage = w.storage ∧
    (s.copy_data_from w src).world.version = w.version ∧
    (s.copy_data_from w src).self = { s with data_ := s.data_.set_requires_grad false } := by
  have h : s.copy_data_from w src =
      { world := w, self := { s with data_ := s.data_.set_requires_grad false },
        thrown := some (.c10_error "ShapeMismatchError") } := by
    simp [SavedVariable.copy_data_from, Tensor.copy_, hdef, hsrc, hne]
  rw [h]
  exact ⟨rfl, rfl, rfl, rfl, rfl, rfl⟩

theorem copy_data_from_rejects_mismatch_witness :
    (sampleSnapshot.copy_data_from sampleWorld sampleLongSource).thrown
      = some (.c10_error "ShapeMismatchError") ∧
    (sampleSnapshot.copy_data_from sampleWorld sampleLongSource).returnsNormally = false ∧
    (sampleSnapshot.copy_data_from sampleWorld sampleLongSource).world.bytes
        sampleSnapshot.data_
      = sampleWorld.bytes sampleSnapshot.data_ ∧
    (sampleSnapshot.copy_data_from sampleWorld sampleLongSource).world.storage
      = sampleWorld.storage ∧
    (sampleSnapshot.copy_data_from sampleWorld sampleLongSource).world.version
      = sampleWorld.version ∧
    (sampleSnapshot.copy_data_from sampleWorld sampleLongSource).self
      = { sampleSnapshot with data_ := sampleSnapshot.data_.set_requires_grad false } :=
  copy_data_from_rejects_mismatch sampleWorld sampleSnapshot sampleLongSource rfl rfl
    (by decide)

/-- C20. When `copy_data_from` completes, the requires-grad flag of the buffer
is what it was before the call, though `copy_` ran on the buffer with the flag
cleared; the snapshot is unchanged in every field, and in memory only the
storage of the buffer may differ. -/
theorem copy_data_from_preserves_flag (w : World) (s : SavedVariable) (src : TensorVal)
    (hok : (s.copy_data_from w src).thrown = none) :
    (s.copy_data_from w src).self.data_.requires_grad = s.data_.requires_grad ∧
    (s.copy_data_from w src).self = s ∧
    (s.data_.set_requires_grad false).copy_ w src = .ok (s.copy_data_from w src).world ∧
    (s.data_.set_requires_grad false).requires_grad = false ∧
    (s.copy_data_from w src).world.version = w.version ∧
    (s.copy_data_from w src).world.alive = w.alive ∧
    (∀ id, id ≠ s.data_.storage → (s.copy_data_from w src).world.storage id = w.storage id) := by
  rcases copy_data_from_cases w s src with ⟨e, he, -⟩ | ⟨h, hc⟩
  · rw [he] at hok
    cases hok
  · rw [h]
    refine ⟨rfl, rfl, hc, rfl, rfl, rfl, fun id hid => ?_⟩
    simp [World.setStorage, hid]

theorem copy_data_from_preserves_flag_witness :
    (sampleSnapshot.copy_data_from sampleWorld sampleSource).self.data_.requires_grad
      = sampleSnapshot.data_.requires_grad ∧
    (sampleSnapshot.copy_data_from sampleWorld sampleSource).self = sampleSnapshot ∧
    (sampleSnapshot.data_.set_requires_grad false).copy_ sampleWorld sampleSource
      = .ok (sampleSnapshot.copy_data_from sampleWorld sampleSource).world ∧
    (sampleSnapshot.data_.set_requires_grad false).requires_grad = false ∧
    (sampleSnapshot.copy_data_from sampleWorld sampleSource).world.version
      = sampleWorld.version ∧
    (sampleSnapshot.copy_data_from sampleWorld sampleSource).world.alive = sampleWorld.alive ∧
    (∀ id, id ≠ sampleSnapshot.data_.storage →
      (sampleSnapshot.copy_data_from sampleWorld sampleSource).world.storage id
        = sampleWorld.storage id) :=
  copy_data_from_preserves_flag sampleWorld sampleSnapshot sampleSource rfl

/-! ## Sparse buffers -/

/-- C16. On a snapshot whose buffer is sparse, `serialize_to_blob` returns a
blob of eight zero bytes, whose length word reads 0, and `deserialize_from_blob`
returns normally on every blob, even one too short to read, leaving the memory
and the snapshot as they were. -/
theorem sparse_degraded_mode (w : World) (s : SavedVariable) (data : Blob)
    (hsparse : s.data_.is_sparse = true) :
    s.serialize_to_blob w = .ok (List.replicate 8 0) ∧
    (List.replicate 8 (0 : Byte)).length = 8 ∧
    loadSizeT (List.replicate 8 0) = some 0 ∧
    s.deserialize_from_blob w data = { world := w, self := s, thrown := none } ∧
    (s.deserialize_from_blob w data).returnsNormally = true ∧
    (s.deserialize_from_blob w data).world.bytes s.data_ = w.bytes s.data_ ∧
    (s.deserialize_from_blob w data).self.current_version (s.deserialize_from_blob w data).world
      = s.current_version w := by
  have h : s.deserialize_from_blob w data = { world := w, self := s, thrown := none } := by
    simp [SavedVariable.deserialize_from_blob, hsparse]
  rw [h]
  refine ⟨?_, rfl, by decide, rfl, rfl, rfl, rfl⟩
  simp [SavedVariable.serialize_to_blob, hsparse, sizeof_size_t]

theorem sparse_degraded_mode_witness :
    sampleSparse.serialize_to_blob sampleWorld = .ok (List.replicate 8 0) ∧
    (List.replicate 8 (0 : Byte)).length = 8 ∧
    loadSizeT (List.replicate 8 0) = some 0 ∧
    sampleSparse.deserialize_from_blob sampleWorld []
      = { world := sampleWorld, self := sampleSparse, thrown := none } ∧
    (sampleSparse.deserialize_from_blob sampleWorld []).returnsNormally = true ∧
    (sampleSparse.deserialize_from_blob sampleWorld []).world.bytes sampleSparse.data_
      = sampleWorld.bytes sampleSparse.data_ ∧
    (sampleSparse.deserialize_from_blob sampleWorld []).self.current_version
        (sampleSparse.deserialize_from_blob sampleWorld []).world
      = sampleSparse.current_version sampleWorld :=
  sparse_degraded_mode sampleWorld sampleSparse [] rfl

/-! ## The stale-version message -/

theorem startsWithChars_iff (msg piece : List Char) :
    startsWithChars msg piece = true ↔ ∃ post, msg = piece ++ post := by
  induction msg generalizing piece with
  | nil =>
    cases piece with
    | nil => simp [startsWithChars]
    | cons p ps => simp [startsWithChars]
  | cons c cs ih =>
    cases piece with
    | nil => simp [startsWithChars]
    | cons p ps =>
      simp only [startsWithChars, Bool.and_eq_true, beq_iff_eq, ih, List.cons_append,
        List.cons.injEq]
      constructor
      · rintro ⟨rfl, post, rfl⟩
        exact ⟨post, rfl, rfl⟩
      · rintro ⟨post, rfl, rfl⟩
        exact ⟨rfl, post, rfl⟩

theorem occursInChars_iff (msg piece : List Char) :
    occursInChars msg piece = true ↔ ∃ pre post, msg = pre ++ piece ++ post := by
  induction msg with
  | nil =>
    simp only [occursInChars, List.isEmpty_iff]
    constructor
    · rintro rfl
      exact ⟨[], [], rfl⟩
    · rintro ⟨pre, post, h⟩
      have h2 := congrArg List.length h
      simp only [List.length_nil, List.length_append] at h2
      exact List.eq_nil_of_length_eq_zero (by omega)
  | cons c cs ih =>
    simp only [occursInChars, Bool.or_eq_true, startsWithChars_iff, ih]
    constructor
    · rintro (⟨post, h⟩ | ⟨pre, post, h⟩)
      · exact ⟨[], post, by simpa using h⟩
      · exact ⟨c :: pre, post, by simp [h]⟩
    · rintro ⟨pre, post, h⟩
      cases pre with
      | nil => exact Or.inl ⟨post, by simpa using h⟩
      | cons d pre =>
        simp only [List.cons_append, List.cons.injEq] at h
        exact Or.inr ⟨pre, post, h.2⟩

theorem occursIn_join_of_mem (piece : String) (pieces : List String) (h : piece ∈ pieces) :
    occursIn piece (String.join pieces) = true := by
  obtain ⟨pre, post, rfl⟩ := List.append_of_mem h
  unfold occursIn
  rw [occursInChars_iff]
  refine ⟨(String.join pre).data, (String.join post).data, ?_⟩
  simp [String.data_join]

theorem staleVersionPieces_clause (w : World) (s : SavedVariable) (g : Option Nat) :
    staleVersionPieces w s g =
      (staleVersionPieces w s none).take 5 ++ producerClause w s g
        ++ (staleVersionPieces w s none).drop 5 := by
  cases g <;> cases w.anomaly_enabled <;> rfl

/-- C17, as stated, fails: with anomaly mode enabled, the stale-version error
thrown for the snapshot of `sampleLeaf` after one in-place mutation has a
message that does not tell the user to enable anomaly detection. -/
theorem stale_message_without_anomaly_hint :
    sampleWorldAnomaly.anomaly_enabled = true ∧
    sampleSnapshot.current_version sampleWorldAnomaly ≠ sampleSnapshot.saved_version_ ∧
    sampleSnapshot.unpack sampleWorldAnomaly none
      = .error (.runtime_error (staleVersionMessage sampleWorldAnomaly sampleSnapshot none)) ∧
    occursIn "enable anomaly detection"
      (staleVersionMessage sampleWorldAnomaly sampleSnapshot none) = false ∧
    occursIn "set_detect_anomaly"
      (staleVersionMessage sampleWorldAnomaly sampleSnapshot none) = false := by
  refine ⟨rfl, by decide, rfl, ?_, ?_⟩
  · set_option maxRecDepth 100000 in decide
  · set_option maxRecDepth 100000 in decide

/-- C17, amended. When `unpack` throws the stale-version error, the message
contains the type string and the sizes of the buffer, its current version and
the recorded version; it is the message of the producer-less case with one
clause inserted, which is empty when no producer was resolved and otherwise
holds the output slot and the name of the producer; and it contains a hint:
the one to enable anomaly detection when anomaly mode is off, and the one to
look at the backtrace printed above when it is on. -/
theorem stale_message_contents (w : World) (s : SavedVariable) (saved_for : Option Nat)
    (hdef : s.data_.defined = true) (hres : s.producer_resolvable w saved_for = true)
    (hstale : s.current_version w ≠ s.saved_version_) :
    ∃ msg, s.unpack w saved_for = .error (.runtime_error msg) ∧
      occursIn s.data_.type_string msg = true ∧
      occursIn (showSizes s.data_.sizes) msg = true ∧
      occursIn (toString (s.current_version w)) msg = true ∧
      occursIn (toString s.saved_version_) msg = true ∧
      msg = String.join ((staleVersionPieces w s none).take 5
        ++ producerClause w s (s.resolved_grad_fn w saved_for)
        ++ (staleVersionPieces w s none).drop 5) ∧
      producerClause w s none = [] ∧
      (∀ g, s.resolved_grad_fn w saved_for = some g →
        producerClause w s (some g)
          = [", which is output ", toString s.output_nr_, " of ", w.node_name g, ","] ∧
        occursIn (toString s.output_nr_) msg = true ∧
        occursIn (w.node_name g) msg = true) ∧
      (w.anomaly_enabled = false →
        occursIn (" Hint: enable anomaly detection to find the operation " ++
          "that failed to compute its gradient, with torch.autograd." ++
          "set_detect_anomaly(True).") msg = true) ∧
      (w.anomaly_enabled = true →
        occursIn (" Hint: the backtrace further above shows the operation " ++
          "that failed to compute its gradient. The variable in question " ++
          "was changed in there or anywhere later. Good luck!") msg = true) := by
  refine ⟨staleVersionMessage w s (s.resolved_grad_fn w saved_for),
    unpack_of_stale w s saved_for hdef hres hstale, ?_, ?_, ?_, ?_, ?_, rfl, ?_, ?_, ?_⟩
  · exact occursIn_join_of_mem _ _ (by simp [staleVersionPieces])
  · exact occursIn_join_of_mem _ _ (by simp [staleVersionPieces])
  · exact occursIn_join_of_mem _ _ (by simp [staleVersionPieces])
  · exact occursIn_join_of_mem _ _ (by simp [staleVersionPieces])
  · rw [← staleVersionPieces_clause]
    rfl
  · intro g hg
    rw [hg]
    exact ⟨rfl, occursIn_join_of_mem _ _ (by simp [staleVersionPieces]),
      occursIn_join_of_mem _ _ (by simp [staleVersionPieces])⟩
  · intro ha
    exact occursIn_join_of_mem _ _ (by simp [staleVersionPieces, ha])
  · intro ha
    exact occursIn_join_of_mem _ _ (by simp [staleVersionPieces, ha])

theorem stale_message_contents_witness :
    ∃ msg, sampleSnapshot.unpack sampleWorldAnomaly none = .error (.runtime_error msg) ∧
      occursIn sampleSnapshot.data_.type_string msg = true ∧
      occursIn (showSizes sampleSnapshot.data_.sizes) msg = true ∧
      occursIn (toString (sampleSnapshot.current_version sampleWorldAnomaly)) msg = true ∧
      occursIn (toString sampleSnapshot.saved_version_) msg = true ∧
      msg = String.join ((staleVersionPieces sampleWorldAnomaly sampleSnapshot none).take 5
        ++ producerClause sampleWorldAnomaly sampleSnapshot
            (sampleSnapshot.resolved_grad_fn sampleWorldAnomaly none)
        ++ (staleVersionPieces sampleWorldAnomaly sampleSnapshot none).drop 5) ∧
      producerClause sampleWorldAnomaly sampleSnapshot none = [] ∧
      (∀ g, sampleSnapshot.resolved_grad_fn sampleWorldAnomaly none = some g →
        producerClause sampleWorldAnomaly sampleSnapshot (some g)
          = [", which is output ", toString sampleSnapshot.output_nr_, " of ",
              sampleWorldAnomaly.node_name g, ","] ∧
        occursIn (toString sampleSnapshot.output_nr_) msg = true ∧
        occursIn (sampleWorldAnomaly.node_name g) msg = true) ∧
      (sampleWorldAnomaly.anomaly_enabled = false →
        occursIn (" Hint: enable anomaly detection to find the operation " ++
          "that failed to compute its gradient, with torch.autograd." ++
          "set_detect_anomaly(True).") msg = true) ∧
      (sampleWorldAnomaly.anomaly_enabled = true →
        occursIn (" Hint: the backtrace further above shows the operation " ++
          "that failed to compute its gradient. The variable in question " ++
          "was changed in there or anywhere later. Good luck!") msg = true) :=
  stale_message_contents sampleWorldAnomaly sampleSnapshot none rfl rfl (by decide)

/-! ## Shared nodes -/

theorem count_visits_eq_paths {σ : Type} (api : NodeApi σ) (s : σ)
    (es : List (Option Nat)) (visits : List Nat) (h : PreOrder api s es visits) :
    ∃ k0, ∀ k, k0 ≤ k → ∀ target,
      visits.count target
        = ((es.filterMap id).map (fun m => pathsFrom api s k m target)).sum := by
  induction h with
  | nil => exact ⟨0, fun k _ target => by simp⟩
  | absent _ ih =>
    obtain ⟨k0, hk0⟩ := ih
    exact ⟨k0, fun k hk target => by simpa using hk0 k hk target⟩
  | @node n es l1 l2 _ _ ih1 ih2 =>
    obtain ⟨k1, hk1⟩ := ih1
    obtain ⟨k2, hk2⟩ := ih2
    refine ⟨max (k1 + 1) k2, fun k hk target => ?_⟩
    obtain ⟨j, rfl⟩ : ∃ j, k = j + 1 := ⟨k - 1, by omega⟩
    have h1 := hk1 j (by omega) target
    have h2 := hk2 (j + 1) (by omega) target
    have hc : (n :: l1 ++ l2).count target
        = (if n = target then 1 else 0) + l1.count target + l2.count target := by
      rw [List.cons_append, List.count_cons, List.count_append]
      by_cases hn : n = target
      · simp [hn]
        omega
      · simp [hn]
    have hp : pathsFrom api s (j + 1) n target
        = (if n = target then 1 else 0)
          + (((api.next_edges s n).filterMap id).map
              (fun m => pathsFrom api s j m target)).sum := rfl
    have hsum : (((some n :: es).filterMap id).map
          (fun m => pathsFrom api s (j + 1) m target)).sum
        = pathsFrom api s (j + 1) n target
          + ((es.filterMap id).map (fun m => pathsFrom api s (j + 1) m target)).sum := by
      simp only [List.filterMap_cons, id, List.map_cons, List.sum_cons]
    rw [hc, hsum, hp, h1, h2]

theorem save_walk_counts_paths {σ : Type} (api : NodeApi σ) (s : σ) (rank : Nat → Nat)
    (root : Nat) (stk : FullStack)
    (hacyclic : ∀ n m, some m ∈ api.next_edges s n → rank m < rank n)
    (hblob : ∀ n, api.can_serialize_variables s n = true →
      (frontBlobSize (api.serialize_variables s n)).isSome = true) :
    ∃ visits,
      (∃ fuel0, ∀ fuel, fuel0 ≤ fuel →
        recurseGraph api s fuel (some root) stk
          = some (.ok (stk ++ queuesOf api s visits))) ∧
      (∃ k0, ∀ k, k0 ≤ k → ∀ target,
        visits.count target = pathsFrom api s k root target) ∧
      (queuesOf api s visits).length
        = (visits.filter (api.can_serialize_variables s)).length := by
  have hex : ∃ visits, PreOrder api s [some root] visits := by
    apply preorder_exists_of_edges
    intro m _
    exact preorder_exists_of_rank api s rank hacyclic (rank m + 1) m (by omega)
  obtain ⟨visits, hvis⟩ := hex
  obtain ⟨f0, hf0⟩ := forEdges_preorder api s hblob _ _ hvis
  obtain ⟨k0, hk0⟩ := count_visits_eq_paths api s _ _ hvis
  refine ⟨visits, ⟨f0, fun fuel hfuel => ?_⟩, ⟨k0, fun k hk target => ?_⟩, ?_⟩
  · rw [← forEdges_single (recurseGraph api s fuel) (some root) stk]
    exact hf0 fuel hfuel stk
  · rw [hk0 k hk target]
    simp
  · simp [queuesOf]

/-- C19, the failing input.  On the diamond `0 → 1 → 3`, `0 → 2 → 3` node 3 is
reached by two paths and the save walk pushes its queue twice, five queues in
all.  The restore walk on that stack makes one `deserialize_variables` call, on
node 0: node 3 is restored no times, and the stack ends with eight queues. -/
theorem recurseRestore_skips_shared_node :
    pathsFrom diamondApi [] 3 0 3 = 2 ∧
    recurseGraph diamondApi [] 3 (some 0) []
      = some (.ok [diamondQueue 0, diamondQueue 1, diamondQueue 3, diamondQueue 2,
          diamondQueue 3]) ∧
    recurseRestore diamondApi [] 3 (some 0)
        [diamondQueue 0, diamondQueue 1, diamondQueue 3, diamondQueue 2, diamondQueue 3]
      = some (.ok ([(0, diamondQueue 0)],
          [diamondQueue 1, diamondQueue 3, diamondQueue 2, diamondQueue 3,
           diamondQueue 1, diamondQueue 3, diamondQueue 2, diamondQueue 3])) ∧
    diamondQueue 3 ≠ diamondQueue 0 ∧ diamondQueue 3 ≠ diamondQueue 1 ∧
    diamondQueue 3 ≠ diamondQueue 2 := by
  refine ⟨by decide, rfl, rfl, by decide, by decide, by decide⟩

end Torch
